import Mathlib

/-!
Verification development for the ChatArchive import normalization engine
(`backend/app/importers/{chatgpt,claude,gemini,copilot}.py`).

The adapters consume decoded JSON (Python values) and return canonical
conversation records, raising `ValueError` when no conversation list can be
located.  We embed the Python code shallowly:

* `PyVal` models decoded JSON values (Python `str`/`int`/`bool`/`None`/
  `list`/`dict`).  Numbers are modelled as integers: the claims under
  scrutiny only involve integral timestamps, and float sub-second precision
  is abstracted away (instants are epoch seconds, `Instant := Int`).
* Exceptions are modelled with `Except BErr`: `BErr.value` is Python's
  `ValueError` (the adapters' `FormatError` is a `ValueError` with a
  message), `BErr.attr` an `AttributeError` from calling `.get`/`.strip`
  on a non-dict/non-str, `BErr.type` a `TypeError` (unhashable key,
  iterating a non-iterable, joining non-strings, `fromtimestamp` of a
  non-number), `BErr.index` an `IndexError`, `BErr.overflow` an
  `OverflowError`, and `BErr.recursion` Python's `RecursionError`
  (the ChatGPT tree walker is call-stack recursion; we give it fuel and
  model fuel exhaustion as `RecursionError`).
* `datetime.fromtimestamp` is modelled after its documented CPython
  behaviour: `OverflowError` when the value does not fit the platform's
  64-bit `time_t`, `ValueError` when the resulting year falls outside
  `datetime`'s range 1..9999, otherwise the instant itself.  Timezones are
  discarded by the source throughout, so an instant is a bare epoch-seconds
  count.
* Python dicts are association lists in insertion order with unique keys
  (a Python dict cannot hold duplicate keys; lookups take the first match).
-/

set_option maxRecDepth 100000

namespace ChatArchive

/-- A decoded JSON / Python value. -/
inductive PyVal where
  | str (s : String)
  | int (n : Int)
  | bool (b : Bool)
  | none
  | list (l : List PyVal)
  | dict (kvs : List (String × PyVal))

/-- Python exception kinds relevant to the importers. -/
inductive BErr where
  | value (msg : String)
  | os
  | type
  | attr
  | index
  | overflow
  | recursion
deriving DecidableEq

/-- An instant: naive epoch seconds (sub-second precision abstracted). -/
abbrev Instant := Int

/-- Python truthiness of a value. -/
def pyTruthy : PyVal → Bool
  | .str s => s ≠ ""
  | .int n => n ≠ 0
  | .bool b => b
  | .none => false
  | .list l => !l.isEmpty
  | .dict kvs => !kvs.isEmpty

/-- Python `a or b` (value-returning, left-biased on truthiness). -/
def pyOr (a b : PyVal) : PyVal := if pyTruthy a then a else b

/-- Lookup in a dict's key/value list (first match; keys are unique). -/
def dlookup (kvs : List (String × PyVal)) (k : String) : Option PyVal :=
  (kvs.find? (fun kv => kv.1 == k)).map (·.2)

/-- Python `d.get(k, default)` on a known dict. -/
def dGetD (kvs : List (String × PyVal)) (k : String) (d : PyVal) : PyVal :=
  (dlookup kvs k).getD d

/-- Python `v.get(k, default)`: `AttributeError` when `v` is not a dict. -/
def pyGet (v : PyVal) (k : String) (d : PyVal) : Except BErr PyVal :=
  match v with
  | .dict kvs => .ok (dGetD kvs k d)
  | _ => .error .attr

/-- Python `k in v` for a dict `v`. -/
def pyHasKey (kvs : List (String × PyVal)) (k : String) : Bool :=
  kvs.any (fun kv => kv.1 == k)

/-- Python `d.get(key)` where the key is itself a value: string keys look
up normally, other hashable values are simply absent from a JSON-shaped
dict, unhashable keys (lists, dicts) raise `TypeError`. -/
def pyDictGetVal (kvs : List (String × PyVal)) (k : PyVal) : Except BErr PyVal :=
  match k with
  | .str s => .ok (dGetD kvs s .none)
  | .list _ => .error .type
  | .dict _ => .error .type
  | _ => .ok .none

/-- Python iteration `for x in v`: lists yield elements, strings yield
one-character strings, dicts yield their keys, anything else raises
`TypeError`. -/
def pyIter : PyVal → Except BErr (List PyVal)
  | .list l => .ok l
  | .str s => .ok (s.toList.map (fun c => .str (String.singleton c)))
  | .dict kvs => .ok (kvs.map (fun kv => .str kv.1))
  | _ => .error .type

mutual

/-- Python `repr` of a value (string escaping inside quotes abstracted). -/
def pyRepr : PyVal → String
  | .str s => "'" ++ s ++ "'"
  | .int n => toString n
  | .bool b => if b then "True" else "False"
  | .none => "None"
  | .list l => "[" ++ String.intercalate ", " (pyReprList l) ++ "]"
  | .dict kvs =>
      "\x7b" ++ String.intercalate ", " (pyReprKvs kvs) ++ "\x7d"

/-- `repr` of each element of a list. -/
def pyReprList : List PyVal → List String
  | [] => []
  | v :: vs => pyRepr v :: pyReprList vs

/-- `repr` of each `'key': value` entry of a dict. -/
def pyReprKvs : List (String × PyVal) → List String
  | [] => []
  | (k, v) :: kvs => ("'" ++ k ++ "': " ++ pyRepr v) :: pyReprKvs kvs

end

/-- Python `str` of a value. -/
def pyStr : PyVal → String
  | .str s => s
  | v => pyRepr v

/-- Python `s.lower()` (ASCII). -/
def pyLower (s : String) : String := String.mk (s.toList.map Char.toLower)

/-- Python's default `str.strip()` whitespace set. -/
def isPyWs (c : Char) : Bool :=
  c == ' ' || c == '\t' || c == '\n' || c == '\r' || c == '\x0b' || c == '\x0c'

/-- Python `s.strip()`. -/
def pyStrip (s : String) : String :=
  String.mk ((s.toList.dropWhile isPyWs).reverse.dropWhile isPyWs).reverse

/-- Splitting worker: scan for the separator `s0 :: srest`, fuelled by the
input length (each step consumes at least one character, so the fuel is
never exhausted when it starts at the input length). -/
def splitAux (s0 : Char) (srest : List Char) :
    Nat → List Char → List Char → List (List Char)
  | 0, l, acc => [acc.reverse ++ l]
  | _ + 1, [], acc => [acc.reverse]
  | n + 1, c :: rest, acc =>
      if c == s0 && rest.take srest.length == srest then
        acc.reverse :: splitAux s0 srest n (rest.drop srest.length) []
      else splitAux s0 srest n rest (c :: acc)

/-- Python `s.split(sep)` for a nonempty separator. -/
def pySplitOn (s sep : String) : List String :=
  match sep.toList with
  | [] => [s]
  | c :: cs => (splitAux c cs s.toList.length s.toList []).map String.mk

/-- Replacement worker, fuelled like `splitAux`. -/
def replaceAux (s0 : Char) (srest repl : List Char) :
    Nat → List Char → List Char
  | 0, l => l
  | _ + 1, [] => []
  | n + 1, c :: rest =>
      if c == s0 && rest.take srest.length == srest then
        repl ++ replaceAux s0 srest repl n (rest.drop srest.length)
      else c :: replaceAux s0 srest repl n rest

/-- Python `s.replace(pat, repl)` (all non-overlapping occurrences,
left to right; the importers only use nonempty patterns). -/
def pyReplace (s pat repl : String) : String :=
  match pat.toList with
  | [] => s
  | c :: cs =>
      String.mk (replaceAux c cs repl.toList s.toList.length s.toList)

/-- The numeric value of a list of decimal digits. -/
def digitsVal (l : List Char) : Nat :=
  l.foldl (fun a c => a * 10 + (c.toNat - 48)) 0

/-- Lower bound of `datetime`'s epoch range (0001-01-01 00:00:00). -/
def minEpoch : Int := -62135596800

/-- Upper bound of `datetime`'s epoch range (9999-12-31 23:59:59). -/
def maxEpoch : Int := 253402300799

/-- `datetime.fromtimestamp` on a number, per the documented CPython
behaviour: `OverflowError` outside the platform 64-bit `time_t`,
`ValueError` when the year falls outside 1..9999, otherwise the instant. -/
def pyFromtimestamp (t : Int) : Except BErr Instant :=
  if t > 9223372036854775807 ∨ t < -9223372036854775808 then .error .overflow
  else if t < minEpoch ∨ t > maxEpoch then .error (.value "year out of range")
  else .ok t

/-- `datetime.fromtimestamp` applied to an arbitrary value (as the ChatGPT
adapter does): numbers convert (Python `bool` is an `int`), anything else
raises `TypeError`. -/
def pyFromtimestampVal (v : PyVal) : Except BErr Instant :=
  match v with
  | .int n => pyFromtimestamp n
  | .bool b => pyFromtimestamp (if b then 1 else 0)
  | _ => .error .type

/-- `except (ValueError, OSError, TypeError): pass` around an expression
`return`ing an instant, falling through to `return None`: those three
exception kinds become "absent", others propagate. -/
def catchTs (r : Except BErr Instant) : Except BErr (Option Instant) :=
  match r with
  | .ok t => .ok (some t)
  | .error (.value _) => .ok Option.none
  | .error .os => .ok Option.none
  | .error .type => .ok Option.none
  | .error e => .error e

/-- Leap year. -/
def isLeap (y : Int) : Bool := (y % 4 == 0 && y % 100 != 0) || y % 400 == 0

/-- Days in a month. -/
def daysInMonth (y : Int) (m : Nat) : Nat :=
  if m = 2 then (if isLeap y then 29 else 28)
  else if m = 4 ∨ m = 6 ∨ m = 9 ∨ m = 11 then 30
  else 31

/-- Days since the Unix epoch of a civil date (valid for years ≥ 1, where
every intermediate division is on nonnegative numbers). -/
def daysFromCivil (y : Int) (m d : Nat) : Int :=
  let ya : Int := if m ≤ 2 then y - 1 else y
  let era : Int := ya / 400
  let yoe : Int := ya - era * 400
  let mp : Int := if m > 2 then (m : Int) - 3 else (m : Int) + 9
  let doy : Int := (153 * mp + 2) / 5 + (d : Int) - 1
  let doe : Int := yoe * 365 + yoe / 4 - yoe / 100 + doy
  era * 146097 + doe - 719468

/-- Epoch seconds of a civil date-time. -/
def civilToEpoch (y : Int) (m d h mi s : Nat) : Int :=
  daysFromCivil y m d * 86400 + h * 3600 + mi * 60 + s

/-- A string of 1-6 decimal digits (`strptime`'s `%f`). -/
def isFracDigits (s : String) : Bool :=
  1 ≤ s.length && s.length ≤ 6 && s.toList.all Char.isDigit

/-- Parse a fixed-width run of digits. -/
def parseDigits (s : String) (w : Nat) : Option Nat :=
  if s.length = w && s.toList.all Char.isDigit then some (digitsVal s.toList)
  else Option.none

/-- Parse `HH:MM:SS`, validating ranges. -/
def parseHMS (s : String) : Option (Nat × Nat × Nat) :=
  match pySplitOn s ":" with
  | [hs, ms, ss] =>
    match parseDigits hs 2, parseDigits ms 2, parseDigits ss 2 with
    | some h, some mi, some sec =>
        if h < 24 && mi < 60 && sec < 60 then some (h, mi, sec) else Option.none
    | _, _, _ => Option.none
  | _ => Option.none

/-- Parse `YYYY-MM-DD`, validating ranges (datetime years are 1..9999). -/
def parseYMD (s : String) : Option (Int × Nat × Nat) :=
  match pySplitOn s "-" with
  | [ys, ms, ds] =>
    match parseDigits ys 4, parseDigits ms 2, parseDigits ds 2 with
    | some y, some m, some d =>
        if 1 ≤ y && 1 ≤ m && m ≤ 12 && 1 ≤ d && d ≤ daysInMonth (y : Int) m then
          some ((y : Int), m, d)
        else Option.none
    | _, _, _ => Option.none
  | _ => Option.none

/-- Parse `YYYY-MM-DD{sep}HH:MM:SS` with an optional (when `allowFrac`)
or required (when `needFrac`) `.ffffff` fractional tail, as one combined
model of the `strptime` format strings the importers use.  The fractional
part is validated but discarded (sub-second precision abstracted). -/
def parseDT (sep : Char) (needFrac : Bool) (s : String) : Option Instant :=
  if s.length < 19 then Option.none
  else
    let date := s.take 10
    let sc := s.drop 10 |>.take 1
    let time := s.drop 11 |>.take 8
    let rest := s.drop 19
    if sc ≠ String.singleton sep then Option.none
    else
      match parseYMD date, parseHMS time with
      | some (y, m, d), some (h, mi, sec) =>
          let fracOk :=
            if needFrac then
              rest.take 1 = "." && isFracDigits (rest.drop 1)
            else rest = ""
          if fracOk then some (civilToEpoch y m d h mi sec) else Option.none
      | _, _ => Option.none

/-- `datetime.strptime(s, fmt)` for the three formats the importers try,
returning `ValueError` on mismatch (its only failure mode here). -/
def pyStrptime (sep : Char) (needFrac : Bool) (s : String) :
    Except BErr Instant :=
  match parseDT sep needFrac s with
  | some t => .ok t
  | Option.none => .error (.value "time data does not match format")

/-- `datetime.fromisoformat`, modelled for the common
`YYYY-MM-DD[{sep}HH:MM:SS[.ffffff]]` shapes (other accepted variants such
as bare offsets are abstracted into the failure case; its only failure
mode is `ValueError`). -/
def pyFromisoformat (s : String) : Except BErr Instant :=
  if s.length = 10 then
    match parseYMD s with
    | some (y, m, d) => .ok (civilToEpoch y m d 0 0 0)
    | Option.none => .error (.value "Invalid isoformat string")
  else
    match parseDT 'T' false s with
    | some t => .ok t
    | Option.none =>
      match parseDT 'T' true s with
      | some t => .ok t
      | Option.none =>
        match parseDT ' ' false s with
        | some t => .ok t
        | Option.none =>
          match parseDT ' ' true s with
          | some t => .ok t
          | Option.none => .error (.value "Invalid isoformat string")

/-- `claude.parse_timestamp`: strip `Z`/`+00:00`, try `fromisoformat`;
numerics convert directly via `fromtimestamp` (note: no milliseconds
heuristic); `ValueError`/`OSError`/`TypeError` fall through to `None`. -/
def claudeParseTimestamp (v : PyVal) : Except BErr (Option Instant) :=
  if pyTruthy v = false then .ok Option.none
  else
    match v with
    | .str s =>
        let s1 := pyReplace s "Z" "+00:00"
        let s2 := pyReplace s1 "+00:00" ""
        catchTs (pyFromisoformat s2)
    | .int n => catchTs (pyFromtimestamp n)
    | .bool b => catchTs (pyFromtimestamp (if b then 1 else 0))
    | _ => .ok Option.none

/-- `gemini.parse_timestamp`: strings go through three `strptime` formats
on the text before any `+`; numerics above `1e12` are divided by 1000
(milliseconds heuristic) before `fromtimestamp`. -/
def geminiParseTimestamp (v : PyVal) : Except BErr (Option Instant) :=
  if pyTruthy v = false then .ok Option.none
  else
    match v with
    | .str s =>
        let s1 := pyReplace s "Z" "+00:00"
        let t := (pySplitOn s1 "+").headD ""
        (match parseDT 'T' true t with
         | some r => .ok (some r)
         | Option.none =>
           match parseDT 'T' false t with
           | some r => .ok (some r)
           | Option.none =>
             match parseDT ' ' false t with
             | some r => .ok (some r)
             | Option.none => .ok Option.none)
    | .int n =>
        catchTs (pyFromtimestamp (if n > 10 ^ 12 then n / 1000 else n))
    | .bool b => catchTs (pyFromtimestamp (if b then 1 else 0))
    | _ => .ok Option.none

/-- `copilot.parse_timestamp`: strings try `fromisoformat` then two
`strptime` formats; numerics above `1e12` are divided by 1000
(milliseconds heuristic) before `fromtimestamp`. -/
def copilotParseTimestamp (v : PyVal) : Except BErr (Option Instant) :=
  if pyTruthy v = false then .ok Option.none
  else
    match v with
    | .str s =>
        let s1 := pyReplace s "Z" "+00:00"
        match pyFromisoformat (pyReplace s1 "+00:00" "") with
        | .ok t => .ok (some t)
        | .error _ =>
          let u := (pySplitOn ((pySplitOn s1 "+").headD "") "Z").headD ""
          match parseDT 'T' true u with
          | some r => .ok (some r)
          | Option.none =>
            match parseDT ' ' false u with
            | some r => .ok (some r)
            | Option.none => .ok Option.none
    | .int n =>
        catchTs (pyFromtimestamp (if n > 10 ^ 12 then n / 1000 else n))
    | .bool b => catchTs (pyFromtimestamp (if b then 1 else 0))
    | _ => .ok Option.none

/-- Python `v == "s"` for a string literal: equal exactly when `v` is that
string (values of other types never equal a string). -/
def pyEqStr (v : PyVal) (s : String) : Bool :=
  match v with
  | .str t => t == s
  | _ => false

/-- The per-message part of a canonical message, before `order_index` is
attached (the importers compute all other fields from the message alone). -/
structure MsgFields where
  sourceId : PyVal
  role : PyVal
  content : String
  contentType : PyVal
  createdAt : Option Instant
  model : PyVal

/-- A canonical message record. -/
structure MsgRec where
  sourceId : PyVal
  role : PyVal
  content : String
  contentType : PyVal
  createdAt : Option Instant
  orderIndex : Nat
  model : PyVal

/-- Attach an `order_index` to the per-message fields. -/
def MsgFields.withIdx (f : MsgFields) (i : Nat) : MsgRec :=
  { sourceId := f.sourceId, role := f.role, content := f.content,
    contentType := f.contentType, createdAt := f.createdAt,
    orderIndex := i, model := f.model }

/-- A canonical conversation record (`raw_json` retains the original item;
`json.dumps` serialization is abstracted to the item itself). -/
structure ConvRec where
  source : String
  sourceId : PyVal
  title : PyVal
  createdAt : Option Instant
  updatedAt : Option Instant
  messageCount : Nat
  rawJson : PyVal
  messages : List MsgRec

/-! ### Claude adapter (`claude.py`) -/

/-- A value used where Python requires a string (`content.strip()` on a
non-string raises `AttributeError`). -/
def pyAsStr : PyVal → Except BErr String
  | .str c => .ok c
  | _ => .error .attr

/-- The body of `parse_claude_export`'s message loop for one raw message:
`None` when the message is skipped (empty after trim), the canonical
fields otherwise.  `itemModel` is the conversation's `model` field. -/
def claudeMsgFields (itemModel : PyVal) (msg : PyVal) :
    Except BErr (Option MsgFields) := do
  let sender ← pyGet msg "sender" (.str "unknown")
  let role : String := if pyEqStr sender "human" then "user" else "assistant"
  let content ← pyGet msg "text" (.str "")
  let c ← pyAsStr content
  if pyStrip c = "" then return Option.none
  else
    let ts ← pyGet msg "created_at" .none
    let msgCreated ← claudeParseTimestamp ts
    let u ← pyGet msg "uuid" .none
    let i ← pyGet msg "id" .none
    return some { sourceId := pyOr u i, role := .str role, content := c,
                  contentType := .str "text", createdAt := msgCreated,
                  model := pyOr itemModel (.str "claude") }

/-- `for idx, msg in enumerate(chat_messages)`: skipped messages still
advance `idx`, and a kept message's `order_index` is its `enumerate`
position. -/
def claudeMessages (itemModel : PyVal) : Nat → List PyVal →
    Except BErr (List MsgRec)
  | _, [] => .ok []
  | idx, m :: ms => do
      let f ← claudeMsgFields itemModel m
      let rest ← claudeMessages itemModel (idx + 1) ms
      match f with
      | some fl => .ok (fl.withIdx idx :: rest)
      | Option.none => .ok rest

/-- One conversation item of `parse_claude_export`. -/
def claudeItem (item : PyVal) : Except BErr ConvRec := do
  let u ← pyGet item "uuid" .none
  let i ← pyGet item "id" .none
  let n ← pyGet item "name" .none
  let t ← pyGet item "title" .none
  let ca ← pyGet item "created_at" .none
  let createdAt ← claudeParseTimestamp ca
  let ua ← pyGet item "updated_at" .none
  let updatedAt ← claudeParseTimestamp ua
  let cm ← pyGet item "chat_messages" (.list [])
  let msgsRaw ← pyIter cm
  let mdl ← pyGet item "model" .none
  let messages ← claudeMessages mdl 0 msgsRaw
  return { source := "claude", sourceId := pyOr u i, title := pyOr n t,
           createdAt := createdAt, updatedAt := updatedAt,
           messageCount := messages.length, rawJson := item,
           messages := messages }

/-- Claude shape detection: the `conversations` value the source computes
before its `if not conversations` check.  Note the single-object wrap on a
`uuid`/`created_at` key, and that `payload.get("conversations",
payload.get("data", []))` is default-based (a present-but-null key stays
null). -/
def claudeLocate (payload : PyVal) : PyVal :=
  match payload with
  | .list l => .list l
  | .dict kvs =>
      if pyHasKey kvs "uuid" || pyHasKey kvs "created_at" then
        .list [.dict kvs]
      else dGetD kvs "conversations" (dGetD kvs "data" (.list []))
  | _ => .none

/-- `parse_claude_export`. -/
def parse_claude_export (payload : PyVal) : Except BErr (List ConvRec) :=
  let conversations := claudeLocate payload
  if pyTruthy conversations = false then
    .error (.value "Unrecognized Claude export format")
  else do
    let items ← pyIter conversations
    items.mapM claudeItem

/-! ### Gemini adapter (`gemini.py`) -/

/-- The fallback tail of `gemini.determine_role`. -/
def geminiRoleFallback (msg : PyVal) : Except BErr String := do
  let ui ← pyGet msg "user_input" .none
  let pr ← pyGet msg "prompt" .none
  if pyTruthy (pyOr ui pr) then return "user" else return "assistant"

/-- `gemini.determine_role`. -/
def geminiDetermineRole (msg : PyVal) : Except BErr String := do
  let r1 ← pyGet msg "role" .none
  let r2 ← pyGet msg "author" .none
  let r3 ← pyGet msg "sender" .none
  let role := pyOr (pyOr r1 r2) r3
  if pyTruthy role then
    let rl := pyLower (pyStr role)
    if rl = "user" ∨ rl = "human" then return "user"
    else if rl = "model" ∨ rl = "assistant" ∨ rl = "ai" ∨ rl = "gemini" ∨
        rl = "bard" then return "assistant"
    else geminiRoleFallback msg
  else geminiRoleFallback msg

/-- Python `x[0]`. -/
def pyIndex0 : PyVal → Except BErr PyVal
  | .list (v :: _) => .ok v
  | .list [] => .error .index
  | .str s => if s = "" then .error .index else .ok (.str (s.take 1))
  | _ => .error .type

/-- `gemini.extract_content`.  Note the list branch joins `str(part)` of
each truthy element — a mapping element contributes its Python string
form, not its own extracted text. -/
def geminiExtractContent (msg : PyVal) : Except BErr String := do
  let c1 ← pyGet msg "text" .none
  let c2 ← pyGet msg "content" .none
  let c3 ← pyGet msg "message" .none
  let c4 ← pyGet msg "prompt" .none
  let c5 ← pyGet msg "response" .none
  let content := pyOr (pyOr (pyOr (pyOr (pyOr c1 c2) c3) c4) c5) (.str "")
  match content with
  | .dict kvs =>
      let t := dGetD kvs "text" .none
      if pyTruthy t then return pyStr t
      else
        let first ← pyIndex0 (dGetD kvs "parts" (.list [.str ""]))
        return pyStr first
  | .list l => return String.intercalate "\n" ((l.filter pyTruthy).map pyStr)
  | other => return pyStr other

/-- The body of `parse_gemini_export`'s message loop for one raw message
(`convCreated` is the conversation's `created_at`, used as fallback). -/
def geminiMsgFields (convCreated : Option Instant) (itemModel : PyVal)
    (msg : PyVal) : Except BErr (Option MsgFields) := do
  let role ← geminiDetermineRole msg
  let content ← geminiExtractContent msg
  if pyStrip content = "" then return Option.none
  else
    let t1 ← pyGet msg "timestamp" .none
    let t2 ← pyGet msg "created_at" .none
    let t3 ← pyGet msg "create_time" .none
    let msgCreated ← geminiParseTimestamp (pyOr (pyOr t1 t2) t3)
    let i1 ← pyGet msg "id" .none
    let i2 ← pyGet msg "message_id" .none
    let m1 ← pyGet msg "model" .none
    return some { sourceId := pyOr i1 i2, role := .str role,
                  content := content, contentType := .str "text",
                  createdAt :=
                    match msgCreated with
                    | some ts => some ts
                    | Option.none => convCreated,
                  model := pyOr (pyOr m1 itemModel) (.str "gemini") }

/-- `for idx, msg in enumerate(messages_data)` in `parse_gemini_export`. -/
def geminiMessages (convCreated : Option Instant) (itemModel : PyVal) :
    Nat → List PyVal → Except BErr (List MsgRec)
  | _, [] => .ok []
  | idx, m :: ms => do
      let f ← geminiMsgFields convCreated itemModel m
      let rest ← geminiMessages convCreated itemModel (idx + 1) ms
      match f with
      | some fl => .ok (fl.withIdx idx :: rest)
      | Option.none => .ok rest

/-- One conversation item of `parse_gemini_export`. -/
def geminiItem (item : PyVal) : Except BErr ConvRec := do
  let i1 ← pyGet item "id" .none
  let i2 ← pyGet item "conversation_id" .none
  let t1 ← pyGet item "title" .none
  let t2 ← pyGet item "name" .none
  let c1 ← pyGet item "create_time" .none
  let c2 ← pyGet item "created_at" .none
  let c3 ← pyGet item "timestamp" .none
  let createdAt ← geminiParseTimestamp (pyOr (pyOr c1 c2) c3)
  let u1 ← pyGet item "update_time" .none
  let u2 ← pyGet item "updated_at" .none
  let updatedAt ← geminiParseTimestamp (pyOr u1 u2)
  let m1 ← pyGet item "messages" .none
  let m2 ← pyGet item "turns" .none
  let m3 ← pyGet item "content" .none
  let msgsRaw ← pyIter (pyOr (pyOr (pyOr m1 m2) m3) (.list []))
  let mdl ← pyGet item "model" .none
  let messages ← geminiMessages createdAt mdl 0 msgsRaw
  return { source := "gemini", sourceId := pyOr i1 i2,
           title := pyOr (pyOr t1 t2) (.str "Untitled"),
           createdAt := createdAt, updatedAt := updatedAt,
           messageCount := messages.length, rawJson := item,
           messages := messages }

/-- Gemini shape detection: `conversations or chats or history or
[payload]` on mappings (never falsy for a mapping payload). -/
def geminiLocate (payload : PyVal) : PyVal :=
  match payload with
  | .list l => .list l
  | .dict kvs =>
      pyOr (pyOr (pyOr (dGetD kvs "conversations" .none)
        (dGetD kvs "chats" .none)) (dGetD kvs "history" .none))
        (.list [.dict kvs])
  | _ => .none

/-- `parse_gemini_export`. -/
def parse_gemini_export (payload : PyVal) : Except BErr (List ConvRec) :=
  let conversations := geminiLocate payload
  if pyTruthy conversations = false then
    .error (.value "Unrecognized Gemini export format")
  else do
    let items ← pyIter conversations
    items.mapM geminiItem

/-! ### Copilot adapter (`copilot.py`) -/

/-- `copilot.determine_role`. -/
def copilotDetermineRole (msg : PyVal) : Except BErr String := do
  let r1 ← pyGet msg "role" .none
  let r2 ← pyGet msg "author" .none
  let r3 ← pyGet msg "sender" .none
  let r4 ← pyGet msg "type" .none
  let role := pyOr (pyOr (pyOr r1 r2) r3) r4
  let fallback : Except BErr String := do
    let rq ← pyGet msg "request" .none
    let qu ← pyGet msg "query" .none
    let pr ← pyGet msg "prompt" .none
    if pyTruthy (pyOr (pyOr rq qu) pr) then return "user"
    else return "assistant"
  if pyTruthy role then
    let rl := pyLower (pyStr role)
    if rl = "user" ∨ rl = "human" ∨ rl = "question" then return "user"
    else if rl = "assistant" ∨ rl = "copilot" ∨ rl = "ai" ∨ rl = "answer" ∨
        rl = "response" then return "assistant"
    else if rl = "system" ∨ rl = "context" then return "system"
    else fallback
  else fallback

/-- The list branch of `copilot.extract_content`: string elements pass
through, mapping elements contribute `part.get("text") or
part.get("value") or ""`, other elements are skipped. -/
def copilotParts : List PyVal → List PyVal
  | [] => []
  | .str s :: rest => .str s :: copilotParts rest
  | .dict kvs :: rest =>
      pyOr (pyOr (dGetD kvs "text" .none) (dGetD kvs "value" .none))
        (.str "") :: copilotParts rest
  | _ :: rest => copilotParts rest

/-- `copilot.extract_content`.  `"\n".join` requires every collected part
to be a string (`TypeError` otherwise). -/
def copilotExtractContent (msg : PyVal) : Except BErr String := do
  let c1 ← pyGet msg "content" .none
  let c2 ← pyGet msg "text" .none
  let c3 ← pyGet msg "message" .none
  let c4 ← pyGet msg "response" .none
  let c5 ← pyGet msg "request" .none
  let c6 ← pyGet msg "query" .none
  let content :=
    pyOr (pyOr (pyOr (pyOr (pyOr (pyOr c1 c2) c3) c4) c5) c6) (.str "")
  match content with
  | .dict kvs =>
      return pyStr (pyOr (pyOr (pyOr (dGetD kvs "text" .none)
        (dGetD kvs "value" .none)) (dGetD kvs "content" .none)) (.str ""))
  | .list l =>
      let strs ← (copilotParts l).mapM fun v =>
        match v with
        | .str s => Except.ok s
        | _ => Except.error BErr.type
      return String.intercalate "\n" strs
  | other => return pyStr other

/-- `copilot.detect_content_type`. -/
def copilotDetectContentType (msg : PyVal) : Except BErr PyVal := do
  let content ← copilotExtractContent msg
  let hc ← pyGet msg "hasCode" .none
  let ic ← pyGet msg "isCode" .none
  if (pySplitOn content "```").length ≠ 1 ∨ pyTruthy hc ∨ pyTruthy ic then
    return .str "code"
  else return .str "text"

/-- The scan of `copilot.extract_title_from_first_message` over raw
messages: title from the first user-authored message with nonempty
extracted content. -/
def copilotTitleLoop : List PyVal → Except BErr String
  | [] => .ok "Untitled Conversation"
  | m :: rest => do
      let r ← copilotDetermineRole m
      if r = "user" then
        let content ← copilotExtractContent m
        if content ≠ "" then
          return content.take 60 ++ (if content.length > 60 then "..." else "")
        else copilotTitleLoop rest
      else copilotTitleLoop rest

/-- `copilot.extract_title_from_first_message`.  Note it probes only
`messages` and `exchanges` (not `turns`). -/
def copilotExtractTitle (item : PyVal) : Except BErr String := do
  let m1 ← pyGet item "messages" .none
  let m2 ← pyGet item "exchanges" .none
  let msgs ← pyIter (pyOr (pyOr m1 m2) (.list []))
  copilotTitleLoop msgs

/-- `copilot.generate_title_from_messages` (the second-pass fallback,
over the already-canonicalized messages): first line of the stripped
content of the first user message. -/
def copilotGenerateTitle : List MsgRec → String
  | [] => "Untitled Conversation"
  | m :: rest =>
      if pyEqStr m.role "user" && m.content ≠ "" then
        let title := (pySplitOn (pyStrip m.content) "\n").headD ""
        title.take 60 ++ (if title.length > 60 then "..." else "")
      else copilotGenerateTitle rest

/-- The body of `parse_copilot_export`'s message loop for one raw message. -/
def copilotMsgFields (convCreated : Option Instant) (msg : PyVal) :
    Except BErr (Option MsgFields) := do
  let role ← copilotDetermineRole msg
  let content ← copilotExtractContent msg
  if pyStrip content = "" then return Option.none
  else
    let t1 ← pyGet msg "timestamp" .none
    let t2 ← pyGet msg "createdAt" .none
    let t3 ← pyGet msg "created_at" .none
    let msgCreated ← copilotParseTimestamp (pyOr (pyOr t1 t2) t3)
    let i1 ← pyGet msg "id" .none
    let i2 ← pyGet msg "messageId" .none
    let ct ← copilotDetectContentType msg
    let m1 ← pyGet msg "model" .none
    return some { sourceId := pyOr i1 i2, role := .str role,
                  content := content, contentType := ct,
                  createdAt :=
                    match msgCreated with
                    | some ts => some ts
                    | Option.none => convCreated,
                  model := pyOr m1 (.str "copilot") }

/-- `for idx, msg in enumerate(messages_data)` in `parse_copilot_export`. -/
def copilotMessages (convCreated : Option Instant) :
    Nat → List PyVal → Except BErr (List MsgRec)
  | _, [] => .ok []
  | idx, m :: ms => do
      let f ← copilotMsgFields convCreated m
      let rest ← copilotMessages convCreated (idx + 1) ms
      match f with
      | some fl => .ok (fl.withIdx idx :: rest)
      | Option.none => .ok rest

/-- The post-loop title fixup of `parse_copilot_export`: regenerate from
the canonical messages when the resolved title is falsy or literally
`"Untitled"`. -/
def copilotFinalTitle (title : PyVal) (messages : List MsgRec) : PyVal :=
  if pyTruthy title = false || pyEqStr title "Untitled" then
    .str (copilotGenerateTitle messages)
  else title

/-- The lazy `or`-chain `item.get("title") or item.get("name") or
extract_title_from_first_message(item)` (the extraction only runs when the
first two are falsy). -/
def copilotTitle0 (t1 t2 item : PyVal) : Except BErr PyVal :=
  if pyTruthy t1 then pure t1
  else if pyTruthy t2 then pure t2
  else do
    let s ← copilotExtractTitle item
    pure (PyVal.str s)

/-- One conversation item of `parse_copilot_export`. -/
def copilotItem (item : PyVal) : Except BErr ConvRec := do
  let i1 ← pyGet item "id" .none
  let i2 ← pyGet item "sessionId" .none
  let i3 ← pyGet item "conversationId" .none
  let t1 ← pyGet item "title" .none
  let t2 ← pyGet item "name" .none
  let title0 ← copilotTitle0 t1 t2 item
  let c1 ← pyGet item "createdAt" .none
  let c2 ← pyGet item "created_at" .none
  let c3 ← pyGet item "startTime" .none
  let c4 ← pyGet item "timestamp" .none
  let createdAt ← copilotParseTimestamp (pyOr (pyOr (pyOr c1 c2) c3) c4)
  let u1 ← pyGet item "updatedAt" .none
  let u2 ← pyGet item "updated_at" .none
  let u3 ← pyGet item "lastMessageTime" .none
  let updatedAt ← copilotParseTimestamp (pyOr (pyOr u1 u2) u3)
  let m1 ← pyGet item "messages" .none
  let m2 ← pyGet item "exchanges" .none
  let m3 ← pyGet item "turns" .none
  let msgsRaw ← pyIter (pyOr (pyOr (pyOr m1 m2) m3) (.list []))
  let messages ← copilotMessages createdAt 0 msgsRaw
  return { source := "copilot", sourceId := pyOr (pyOr i1 i2) i3,
           title := copilotFinalTitle title0 messages,
           createdAt := createdAt, updatedAt := updatedAt,
           messageCount := messages.length, rawJson := item,
           messages := messages }

/-- Copilot shape detection: `conversations or sessions or chats or
[payload]` on mappings. -/
def copilotLocate (payload : PyVal) : PyVal :=
  match payload with
  | .list l => .list l
  | .dict kvs =>
      pyOr (pyOr (pyOr (dGetD kvs "conversations" .none)
        (dGetD kvs "sessions" .none)) (dGetD kvs "chats" .none))
        (.list [.dict kvs])
  | _ => .none

/-- `parse_copilot_export`. -/
def parse_copilot_export (payload : PyVal) : Except BErr (List ConvRec) :=
  let conversations := copilotLocate payload
  if pyTruthy conversations = false then
    .error (.value "Unrecognized Copilot export format")
  else do
    let items ← pyIter conversations
    items.mapM copilotItem

/-! ### ChatGPT adapter (`chatgpt.py`)

The tree walker `traverse` is plain call-stack recursion in the source;
we index it by a fuel parameter modelling the interpreter's recursion
depth limit, with exhaustion as `BErr.recursion` (Python's
`RecursionError`). -/

/-- `chatgpt.should_include_message`. -/
def chatgptShouldInclude (message : PyVal) : Except BErr Bool := do
  if pyTruthy message = false then return false
  else
    let metadata ← pyGet message "metadata" (.dict [])
    let hidden ← pyGet metadata "is_visually_hidden_from_conversation" .none
    if pyTruthy hidden then return false
    else
      let content ← pyGet message "content" (.dict [])
      let ct ← pyGet content "content_type" (.str "")
      if pyEqStr ct "user_editable_context" || pyEqStr ct "system_error" then
        return false
      else
        let author ← pyGet message "author" (.dict [])
        let role ← pyGet author "role" (.str "")
        if pyEqStr role "user" || pyEqStr role "assistant" then return true
        else if pyEqStr role "tool" then return true
        else return false

/-- The string elements of `parts` (`[p for p in parts if
isinstance(p, str)]`). -/
def chatgptStrParts (parts : List PyVal) : List String :=
  parts.filterMap fun p =>
    match p with
    | .str s => some s
    | _ => Option.none

/-- The text extraction of `chatgpt.parse_message`: join the string parts
of a truthy `parts`, empty otherwise. -/
def chatgptPartsText (parts : PyVal) : Except BErr String :=
  if pyTruthy parts then do
    let ps ← pyIter parts
    pure (String.intercalate "\n" (chatgptStrParts ps))
  else pure ""

/-- The message-level timestamp of `chatgpt.parse_message`: a truthiness
test (`if create_time:`) guards `datetime.fromtimestamp`. -/
def chatgptMsgTs (v : PyVal) : Except BErr (Option Instant) :=
  if pyTruthy v then catchTs (pyFromtimestampVal v) else pure Option.none

/-- `chatgpt.parse_message` up to (but not including) the `order_index`
argument, which is attached separately. -/
def chatgptMsgFields (message : PyVal) : Except BErr (Option MsgFields) := do
  let author ← pyGet message "author" (.dict [])
  let role ← pyGet author "role" (.str "unknown")
  let content ← pyGet message "content" (.dict [])
  let ct ← pyGet content "content_type" (.str "text")
  let parts ← pyGet content "parts" (.list [])
  let textContent ← chatgptPartsText parts
  if pyStrip textContent = "" then return Option.none
  else
    let createTime ← pyGet message "create_time" .none
    let createdAt ← chatgptMsgTs createTime
    let metadata ← pyGet message "metadata" (.dict [])
    let mdl ← pyGet metadata "model_slug" .none
    let mid ← pyGet message "id" .none
    return some { sourceId := mid, role := role, content := textContent,
                  contentType := ct, createdAt := createdAt, model := mdl }

/-- `chatgpt.parse_message`. -/
def chatgptParseMessage (message : PyVal) (order : Nat) :
    Except BErr (Option MsgRec) := do
  let f ← chatgptMsgFields message
  return f.map (·.withIdx order)

/-- `message and should_include_message(message)` (lazy `and`). -/
def chatgptIncluded (message : PyVal) : Except BErr Bool :=
  if pyTruthy message then chatgptShouldInclude message else pure false

/-- The node-visit step of `chatgpt.traverse`: when the message passed the
inclusion filter, parse it; a parsed message consumes the next `order`
index, a skipped (empty) one does not. -/
def chatgptVisit (message : PyVal) (inc : Bool) (order : Nat) :
    Except BErr (List MsgRec × Nat) :=
  if inc then do
    let md ← chatgptParseMessage message order
    match md with
    | some d => pure ([d], order + 1)
    | Option.none => pure (([] : List MsgRec), order)
  else pure (([] : List MsgRec), order)

/-- `chatgpt.traverse`, on the node mapping's key/value list: visit the
node (if any), then recurse into the children in order (the `for child_id
in node.get("children", [])` loop is a monadic fold over the recursive
calls).  Returns the emitted messages and the updated running `order`
counter. -/
def chatgptTraverse (kvs : List (String × PyVal)) :
    Nat → PyVal → Nat → Except BErr (List MsgRec × Nat)
  | 0, _, _ => .error .recursion
  | fuel + 1, nid, order => do
      let node ← pyDictGetVal kvs nid
      if pyTruthy node = false then return ([], order)
      else
        let message ← pyGet node "message" .none
        let inc ← chatgptIncluded message
        let st ← chatgptVisit message inc order
        let children ← pyGet node "children" (.list [])
        let cl ← pyIter children
        cl.foldlM (fun acc c => do
          let r ← chatgptTraverse kvs fuel c acc.2
          pure (acc.1 ++ r.1, r.2)) st

/-- The root-finding loop of `extract_messages_from_mapping`: the first
node whose `parent` is null. -/
def chatgptFindRoot : List (String × PyVal) → Except BErr (Option String)
  | [] => .ok Option.none
  | (k, node) :: rest => do
      let p ← pyGet node "parent" .none
      match p with
      | .none => .ok (some k)
      | _ => chatgptFindRoot rest

/-- `chatgpt.extract_messages_from_mapping`: empty mapping short-circuits;
otherwise find the root (falling back to the first key when no null-parent
node exists, or when the found root id is falsy) and traverse. -/
def chatgptExtractMessages (fuel : Nat) (mapping : PyVal) :
    Except BErr (List MsgRec) := do
  if pyTruthy mapping = false then return []
  else
    match mapping with
    | .dict kvs => do
        let r ← chatgptFindRoot kvs
        let rootId :=
          match r with
          | some s => if s = "" then (kvs.headD ("", .none)).1 else s
          | Option.none => (kvs.headD ("", .none)).1
        let st ← chatgptTraverse kvs fuel (.str rootId) 0
        return st.1
    | _ => .error .attr

/-- The conversation-level timestamp of `parse_chatgpt_export`: an
`is not None` test (not truthiness) guards `datetime.fromtimestamp`, so a
numeric `0` is converted to the epoch instant. -/
def chatgptConvTs (v : PyVal) : Except BErr (Option Instant) :=
  match v with
  | .none => pure Option.none
  | v => catchTs (pyFromtimestampVal v)

/-- One conversation item of `parse_chatgpt_export`. -/
def chatgptItem (fuel : Nat) (item : PyVal) : Except BErr ConvRec := do
  let title ← pyGet item "title" .none
  let createTime ← pyGet item "create_time" .none
  let createdAt ← chatgptConvTs createTime
  let updateTime ← pyGet item "update_time" .none
  let updatedAt ← chatgptConvTs updateTime
  let mapping ← pyGet item "mapping" (.dict [])
  let messages ← chatgptExtractMessages fuel mapping
  let i1 ← pyGet item "id" .none
  let i2 ← pyGet item "conversation_id" .none
  return { source := "chatgpt", sourceId := pyOr i1 i2, title := title,
           createdAt := createdAt, updatedAt := updatedAt,
           messageCount := messages.length, rawJson := item,
           messages := messages }

/-- ChatGPT shape detection: the `conversations` value; the raise test is
`conversations is None` (an empty list passes). -/
def chatgptLocate (payload : PyVal) : PyVal :=
  match payload with
  | .list l => .list l
  | .dict kvs => dGetD kvs "conversations" .none
  | _ => .none

/-- `parse_chatgpt_export`. -/
def parse_chatgpt_export (fuel : Nat) (payload : PyVal) :
    Except BErr (List ConvRec) :=
  match chatgptLocate payload with
  | .none => .error (.value "Unrecognized ChatGPT export format")
  | conv => do
      let items ← pyIter conv
      items.mapM (chatgptItem fuel)

/-! ### Reference definitions for comparison with the spec's claims -/

/-- Reference (spec-side) function for the order-index claim: the
`enumerate` positions, starting at `idx`, of the messages the Claude loop
keeps.  (On an error the loop aborts; the value is irrelevant then.) -/
def claudeKeptIdx (itemModel : PyVal) : Nat → List PyVal → List Nat
  | _, [] => []
  | idx, m :: ms =>
      match claudeMsgFields itemModel m with
      | .ok (some _) => idx :: claudeKeptIdx itemModel (idx + 1) ms
      | _ => claudeKeptIdx itemModel (idx + 1) ms

/-- Reference function: kept `enumerate` positions of the Gemini loop. -/
def geminiKeptIdx (convCreated : Option Instant) (itemModel : PyVal) :
    Nat → List PyVal → List Nat
  | _, [] => []
  | idx, m :: ms =>
      match geminiMsgFields convCreated itemModel m with
      | .ok (some _) => idx :: geminiKeptIdx convCreated itemModel (idx + 1) ms
      | _ => geminiKeptIdx convCreated itemModel (idx + 1) ms

/-- Reference function: kept `enumerate` positions of the Copilot loop. -/
def copilotKeptIdx (convCreated : Option Instant) :
    Nat → List PyVal → List Nat
  | _, [] => []
  | idx, m :: ms =>
      match copilotMsgFields convCreated m with
      | .ok (some _) => idx :: copilotKeptIdx convCreated (idx + 1) ms
      | _ => copilotKeptIdx convCreated (idx + 1) ms

/-- Reference (spec-side) text of one element of a Copilot content list:
strings pass through, mappings contribute their `text`/`value` field,
anything else is skipped. -/
def copilotPartText : PyVal → Option String
  | .str s => some s
  | .dict kvs =>
      match pyOr (pyOr (dGetD kvs "text" .none) (dGetD kvs "value" .none))
          (.str "") with
      | .str s => some s
      | _ => Option.none
  | _ => Option.none

/-- Reference (spec-side) newline join of a Copilot content list. -/
def copilotJoinSpec (parts : List PyVal) : String :=
  String.intercalate "\n" (parts.filterMap copilotPartText)

/-- A content-list element the Copilot join can process without a
`TypeError`: mapping elements must resolve to a string. -/
def PartOk (p : PyVal) : Prop :=
  ∀ kvs, p = .dict kvs →
    ∃ s, pyOr (pyOr (dGetD kvs "text" .none) (dGetD kvs "value" .none))
      (.str "") = .str s

/-- The message's own timestamp expression in the Gemini message loop
(`msg.get("timestamp") or msg.get("created_at") or msg.get("create_time")`). -/
def geminiOwnTs (kvs : List (String × PyVal)) : PyVal :=
  pyOr (pyOr (dGetD kvs "timestamp" .none) (dGetD kvs "created_at" .none))
    (dGetD kvs "create_time" .none)

/-- The message's own timestamp expression in the Copilot message loop
(`msg.get("timestamp") or msg.get("createdAt") or msg.get("created_at")`). -/
def copilotOwnTs (kvs : List (String × PyVal)) : PyVal :=
  pyOr (pyOr (dGetD kvs "timestamp" .none) (dGetD kvs "createdAt" .none))
    (dGetD kvs "created_at" .none)

/-! ### Concrete example payloads -/

/-- A single-node ChatGPT mapping whose node lists itself as its own
child (a cyclic child reference). -/
def cycKvs : List (String × PyVal) :=
  [("a", .dict [("parent", .none), ("children", .list [.str "a"])])]

/-- The spec's 3-node ChatGPT example: root (no message) → A (visible
user message) → B (assistant message hidden from the conversation). -/
def exMapping : PyVal := .dict [
  ("root", .dict [("parent", .none), ("children", .list [.str "A"])]),
  ("A", .dict [("parent", .str "root"),
    ("message", .dict [
      ("author", .dict [("role", .str "user")]),
      ("content", .dict [("content_type", .str "text"),
                         ("parts", .list [.str "Hello"])])]),
    ("children", .list [.str "B"])]),
  ("B", .dict [("parent", .str "A"),
    ("message", .dict [
      ("author", .dict [("role", .str "assistant")]),
      ("content", .dict [("content_type", .str "text"),
                         ("parts", .list [.str "secret"])]),
      ("metadata",
        .dict [("is_visually_hidden_from_conversation", .bool true)])]),
    ("children", .list [])])]

/-- A 75-character message content. -/
def c75 : String := String.mk (List.replicate 75 'a')

/-- A two-node acyclic ChatGPT mapping (used to witness termination). -/
def acyclicKvs : List (String × PyVal) :=
  [("a", .dict [("parent", .none), ("children", .list [.str "b"])]),
   ("b", .dict [("parent", .str "a"), ("children", .list [])])]

/-- "Succeeds, or fails with an error satisfying `P`": the device for
classifying which exception kinds a computation can raise. -/
def ErrOk (P : BErr → Prop) : Except BErr α → Prop
  | .ok _ => True
  | .error e => P e

/-- Error kinds other than `ValueError` (what an adapter body can raise
once the format check has passed: no further `ValueError` is reachable,
so a `ValueError` result characterizes the format error). -/
def NotValue (e : BErr) : Prop := ∀ s, e ≠ .value s

/-- Error kinds other than `RecursionError` (what the per-node message
processing of the tree walker can raise: only the recursion itself can
exhaust the stack). -/
def NotRec (e : BErr) : Prop := e ≠ .recursion

/-- The child references the traversal follows out of a node: its
`children` list (empty when the node is not a dict or the children value
is not iterable — those shapes abort with a non-recursion error before
any recursive call). -/
def childIds (node : PyVal) : List PyVal :=
  match node with
  | .dict nkvs =>
      match pyIter (dGetD nkvs "children" (.list [])) with
      | .ok l => l
      | .error _ => []
  | _ => []

/-- Extend a rank on node keys to arbitrary id values: non-string ids
never resolve to a truthy node, so they get rank 0. -/
def idRank (rank : String → Nat) : PyVal → Nat
  | .str s => rank s
  | _ => 0

/-! ## Lemmas: which exception kinds each computation can raise -/

theorem errok_ok {α : Type} {P : BErr → Prop} (a : α) :
    ErrOk P (Except.ok a) := trivial

theorem errok_pure {α : Type} {P : BErr → Prop} (a : α) :
    ErrOk P (pure a : Except BErr α) := trivial

theorem errok_error {α : Type} {P : BErr → Prop} {e : BErr} (h : P e) :
    ErrOk P (Except.error e : Except BErr α) := h

theorem errok_mono {α : Type} {P Q : BErr → Prop}
    (hPQ : ∀ e, P e → Q e) {r : Except BErr α} (h : ErrOk P r) :
    ErrOk Q r := by
  cases r with
  | ok a => trivial
  | error e => exact hPQ e h

theorem errok_bind {α β : Type} {P : BErr → Prop} {x : Except BErr α}
    {f : α → Except BErr β} (hx : ErrOk P x)
    (hf : ∀ a, ErrOk P (f a)) : ErrOk P (x >>= f) := by
  cases x with
  | ok a => exact hf a
  | error e => exact hx

theorem errok_ite {α : Type} {P : BErr → Prop} {c : Prop} [Decidable c]
    {a b : Except BErr α} (ha : ErrOk P a) (hb : ErrOk P b) :
    ErrOk P (if c then a else b) := by
  split <;> assumption

theorem errok_pyGet {P : BErr → Prop} (h : P .attr) (v : PyVal)
    (k : String) (d : PyVal) : ErrOk P (pyGet v k d) := by
  cases v <;> first | exact h | trivial

theorem errok_pyIter {P : BErr → Prop} (h : P .type) (v : PyVal) :
    ErrOk P (pyIter v) := by
  cases v <;> first | exact h | trivial

theorem errok_pyDictGetVal {P : BErr → Prop} (h : P .type)
    (kvs : List (String × PyVal)) (k : PyVal) :
    ErrOk P (pyDictGetVal kvs k) := by
  cases k <;> first | exact h | trivial

theorem errok_pyIndex0 {P : BErr → Prop} (ht : P .type) (hi : P .index)
    (v : PyVal) : ErrOk P (pyIndex0 v) := by
  cases v with
  | list l => cases l <;> first | exact hi | trivial
  | str s =>
      show ErrOk P (if s = "" then Except.error BErr.index
        else Except.ok (PyVal.str (s.take 1)))
      split <;> first | exact hi | trivial
  | int n => exact ht
  | bool b => exact ht
  | none => exact ht
  | dict kvs => exact ht

theorem errok_catch_ft {P : BErr → Prop} (h : P .overflow) (n : Int) :
    ErrOk P (catchTs (pyFromtimestamp n)) := by
  unfold pyFromtimestamp
  split
  · exact h
  · split <;> trivial

theorem errok_catch_ftv {P : BErr → Prop} (h : P .overflow) (v : PyVal) :
    ErrOk P (catchTs (pyFromtimestampVal v)) := by
  cases v <;> first | exact errok_catch_ft h _ | trivial

theorem errok_fromiso {P : BErr → Prop}
    (h : ∀ m, P (.value m)) (s : String) :
    ErrOk P (pyFromisoformat s) := by
  unfold pyFromisoformat
  repeat first | exact h _ | trivial | split

theorem errok_catch_iso {P : BErr → Prop} (s : String) :
    ErrOk P (catchTs (pyFromisoformat s)) := by
  have := errok_fromiso (P := fun e => ∃ m, e = .value m)
    (fun m => ⟨m, rfl⟩) s
  revert this
  cases pyFromisoformat s with
  | ok t => intro _; trivial
  | error e =>
      rintro ⟨m, rfl⟩
      trivial

theorem errok_claudePT {P : BErr → Prop} (h : P .overflow) (v : PyVal) :
    ErrOk P (claudeParseTimestamp v) := by
  unfold claudeParseTimestamp
  split
  · trivial
  · cases v <;>
      first
      | exact errok_catch_iso _
      | exact errok_catch_ft h _
      | trivial

theorem errok_dtmatch {P : BErr → Prop} (a b c : Option Instant) :
    ErrOk P ((match a with
      | some r => Except.ok (some r)
      | Option.none =>
        match b with
        | some r => Except.ok (some r)
        | Option.none =>
          match c with
          | some r => Except.ok (some r)
          | Option.none => Except.ok Option.none) :
      Except BErr (Option Instant)) := by
  cases a <;> cases b <;> cases c <;> trivial

theorem errok_isomatch {P : BErr → Prop} (r : Except BErr Instant)
    (a b : Option Instant) :
    ErrOk P ((match r with
      | .ok t => Except.ok (some t)
      | .error _ =>
        match a with
        | some x => Except.ok (some x)
        | Option.none =>
          match b with
          | some x => Except.ok (some x)
          | Option.none => Except.ok Option.none) :
      Except BErr (Option Instant)) := by
  cases r <;> cases a <;> cases b <;> trivial

theorem errok_geminiPT {P : BErr → Prop} (h : P .overflow) (v : PyVal) :
    ErrOk P (geminiParseTimestamp v) := by
  unfold geminiParseTimestamp
  split
  · trivial
  · cases v <;>
      first
      | exact errok_catch_ft h _
      | exact errok_dtmatch _ _ _
      | trivial

theorem errok_copilotPT {P : BErr → Prop} (h : P .overflow) (v : PyVal) :
    ErrOk P (copilotParseTimestamp v) := by
  unfold copilotParseTimestamp
  split
  · trivial
  · cases v <;>
      first
      | exact errok_catch_ft h _
      | exact errok_isomatch _ _ _
      | trivial

theorem errok_mapM {α β : Type} {P : BErr → Prop}
    {f : α → Except BErr β} (hf : ∀ a, ErrOk P (f a)) (l : List α) :
    ErrOk P (l.mapM f) := by
  have loop : ∀ (l' : List α) (acc : List β),
      ErrOk P (List.mapM.loop f l' acc) := by
    intro l'
    induction l' with
    | nil => intro acc; trivial
    | cons a as ih =>
        intro acc
        exact errok_bind (hf a) fun b => ih (b :: acc)
  exact loop l []

theorem errok_foldlM {α σ : Type} {P : BErr → Prop}
    {f : σ → α → Except BErr σ} (hf : ∀ s a, ErrOk P (f s a)) :
    ∀ (l : List α) (s : σ), ErrOk P (l.foldlM f s) := by
  intro l
  induction l with
  | nil => intro s; trivial
  | cons a as ih =>
      intro s
      exact errok_bind (hf s a) fun s' => ih s'

theorem nv_attr : NotValue .attr := fun _ h => nomatch h
theorem nv_type : NotValue .type := fun _ h => nomatch h
theorem nv_index : NotValue .index := fun _ h => nomatch h
theorem nv_overflow : NotValue .overflow := fun _ h => nomatch h
theorem nv_recursion : NotValue .recursion := fun _ h => nomatch h

theorem errok_claudeMsgFields {P : BErr → Prop} (ha : P .attr)
    (ho : P .overflow) (mdl m : PyVal) :
    ErrOk P (claudeMsgFields mdl m) := by
  unfold claudeMsgFields
  refine errok_bind (errok_pyGet ha _ _ _) fun sender => ?_
  refine errok_bind (errok_pyGet ha _ _ _) fun content => ?_
  refine errok_bind ?_ fun c => ?_
  · cases content <;> trivial
  · refine errok_ite (errok_pure _) ?_
    refine errok_bind (errok_pyGet ha _ _ _) fun ts => ?_
    refine errok_bind (errok_claudePT ho _) fun mc => ?_
    refine errok_bind (errok_pyGet ha _ _ _) fun u => ?_
    refine errok_bind (errok_pyGet ha _ _ _) fun i => ?_
    exact errok_pure _

theorem errok_claudeMessages {P : BErr → Prop} (ha : P .attr)
    (ho : P .overflow) (mdl : PyVal) :
    ∀ (idx : Nat) (msgs : List PyVal),
      ErrOk P (claudeMessages mdl idx msgs) := by
  intro idx msgs
  induction msgs generalizing idx with
  | nil => trivial
  | cons m ms ih =>
      simp only [claudeMessages]
      refine errok_bind (errok_claudeMsgFields ha ho _ _) fun f => ?_
      refine errok_bind (ih _) fun rest => ?_
      cases f <;> trivial

theorem errok_claudeItem {P : BErr → Prop} (ha : P .attr)
    (ho : P .overflow) (ht : P .type) (item : PyVal) :
    ErrOk P (claudeItem item) := by
  unfold claudeItem
  refine errok_bind (errok_pyGet ha _ _ _) fun u => ?_
  refine errok_bind (errok_pyGet ha _ _ _) fun i => ?_
  refine errok_bind (errok_pyGet ha _ _ _) fun n => ?_
  refine errok_bind (errok_pyGet ha _ _ _) fun t => ?_
  refine errok_bind (errok_pyGet ha _ _ _) fun ca => ?_
  refine errok_bind (errok_claudePT ho _) fun createdAt => ?_
  refine errok_bind (errok_pyGet ha _ _ _) fun ua => ?_
  refine errok_bind (errok_claudePT ho _) fun updatedAt => ?_
  refine errok_bind (errok_pyGet ha _ _ _) fun cm => ?_
  refine errok_bind (errok_pyIter ht _) fun msgsRaw => ?_
  refine errok_bind (errok_pyGet ha _ _ _) fun mdl => ?_
  refine errok_bind (errok_claudeMessages ha ho _ _ _) fun messages => ?_
  exact errok_pure _

theorem errok_geminiRoleFallback {P : BErr → Prop} (ha : P .attr)
    (m : PyVal) : ErrOk P (geminiRoleFallback m) := by
  unfold geminiRoleFallback
  refine errok_bind (errok_pyGet ha _ _ _) fun ui => ?_
  refine errok_bind (errok_pyGet ha _ _ _) fun pr => ?_
  exact errok_ite (errok_pure _) (errok_pure _)

theorem errok_geminiDetermineRole {P : BErr → Prop} (ha : P .attr)
    (m : PyVal) : ErrOk P (geminiDetermineRole m) := by
  unfold geminiDetermineRole
  refine errok_bind (errok_pyGet ha _ _ _) fun r1 => ?_
  refine errok_bind (errok_pyGet ha _ _ _) fun r2 => ?_
  refine errok_bind (errok_pyGet ha _ _ _) fun r3 => ?_
  refine errok_ite ?_ (errok_geminiRoleFallback ha _)
  exact errok_ite (errok_pure _)
    (errok_ite (errok_pure _) (errok_geminiRoleFallback ha _))

theorem errok_geminiExtractContent {P : BErr → Prop} (ha : P .attr)
    (ht : P .type) (hi : P .index) (m : PyVal) :
    ErrOk P (geminiExtractContent m) := by
  unfold geminiExtractContent
  refine errok_bind (errok_pyGet ha _ _ _) fun c1 => ?_
  refine errok_bind (errok_pyGet ha _ _ _) fun c2 => ?_
  refine errok_bind (errok_pyGet ha _ _ _) fun c3 => ?_
  refine errok_bind (errok_pyGet ha _ _ _) fun c4 => ?_
  refine errok_bind (errok_pyGet ha _ _ _) fun c5 => ?_
  cases pyOr (pyOr (pyOr (pyOr (pyOr c1 c2) c3) c4) c5) (.str "") with
  | dict kvs =>
      exact errok_ite (errok_pure _)
        (errok_bind (errok_pyIndex0 ht hi _) fun first => errok_pure _)
  | list l => exact errok_pure _
  | str s => exact errok_pure _
  | int n => exact errok_pure _
  | bool b => exact errok_pure _
  | none => exact errok_pure _

theorem errok_geminiMsgFields {P : BErr → Prop} (ha : P .attr)
    (ho : P .overflow) (ht : P .type) (hi : P .index)
    (cc : Option Instant) (mdl m : PyVal) :
    ErrOk P (geminiMsgFields cc mdl m) := by
  unfold geminiMsgFields
  refine errok_bind (errok_geminiDetermineRole ha _) fun role => ?_
  refine errok_bind (errok_geminiExtractContent ha ht hi _) fun content => ?_
  refine errok_ite (errok_pure _) ?_
  refine errok_bind (errok_pyGet ha _ _ _) fun t1 => ?_
  refine errok_bind (errok_pyGet ha _ _ _) fun t2 => ?_
  refine errok_bind (errok_pyGet ha _ _ _) fun t3 => ?_
  refine errok_bind (errok_geminiPT ho _) fun mc => ?_
  refine errok_bind (errok_pyGet ha _ _ _) fun i1 => ?_
  refine errok_bind (errok_pyGet ha _ _ _) fun i2 => ?_
  refine errok_bind (errok_pyGet ha _ _ _) fun m1 => ?_
  exact errok_pure _

theorem errok_geminiMessages {P : BErr → Prop} (ha : P .attr)
    (ho : P .overflow) (ht : P .type) (hi : P .index)
    (cc : Option Instant) (mdl : PyVal) :
    ∀ (idx : Nat) (msgs : List PyVal),
      ErrOk P (geminiMessages cc mdl idx msgs) := by
  intro idx msgs
  induction msgs generalizing idx with
  | nil => trivial
  | cons m ms ih =>
      simp only [geminiMessages]
      refine errok_bind (errok_geminiMsgFields ha ho ht hi _ _ _) fun f => ?_
      refine errok_bind (ih _) fun rest => ?_
      cases f <;> trivial

theorem errok_geminiItem {P : BErr → Prop} (ha : P .attr)
    (ho : P .overflow) (ht : P .type) (hi : P .index) (item : PyVal) :
    ErrOk P (geminiItem item) := by
  unfold geminiItem
  refine errok_bind (errok_pyGet ha _ _ _) fun i1 => ?_
  refine errok_bind (errok_pyGet ha _ _ _) fun i2 => ?_
  refine errok_bind (errok_pyGet ha _ _ _) fun t1 => ?_
  refine errok_bind (errok_pyGet ha _ _ _) fun t2 => ?_
  refine errok_bind (errok_pyGet ha _ _ _) fun c1 => ?_
  refine errok_bind (errok_pyGet ha _ _ _) fun c2 => ?_
  refine errok_bind (errok_pyGet ha _ _ _) fun c3 => ?_
  refine errok_bind (errok_geminiPT ho _) fun createdAt => ?_
  refine errok_bind (errok_pyGet ha _ _ _) fun u1 => ?_
  refine errok_bind (errok_pyGet ha _ _ _) fun u2 => ?_
  refine errok_bind (errok_geminiPT ho _) fun updatedAt => ?_
  refine errok_bind (errok_pyGet ha _ _ _) fun m1 => ?_
  refine errok_bind (errok_pyGet ha _ _ _) fun m2 => ?_
  refine errok_bind (errok_pyGet ha _ _ _) fun m3 => ?_
  refine errok_bind (errok_pyIter ht _) fun msgsRaw => ?_
  refine errok_bind (errok_pyGet ha _ _ _) fun mdl => ?_
  refine errok_bind (errok_geminiMessages ha ho ht hi _ _ _ _) fun ms => ?_
  exact errok_pure _

theorem errok_copilotDetermineRole {P : BErr → Prop} (ha : P .attr)
    (m : PyVal) : ErrOk P (copilotDetermineRole m) := by
  unfold copilotDetermineRole
  refine errok_bind (errok_pyGet ha _ _ _) fun r1 => ?_
  refine errok_bind (errok_pyGet ha _ _ _) fun r2 => ?_
  refine errok_bind (errok_pyGet ha _ _ _) fun r3 => ?_
  refine errok_bind (errok_pyGet ha _ _ _) fun r4 => ?_
  have fb : ErrOk P (do
      let rq ← pyGet m "request" .none
      let qu ← pyGet m "query" .none
      let pr ← pyGet m "prompt" .none
      if pyTruthy (pyOr (pyOr rq qu) pr) then pure "user"
      else pure "assistant") := by
    refine errok_bind (errok_pyGet ha _ _ _) fun rq => ?_
    refine errok_bind (errok_pyGet ha _ _ _) fun qu => ?_
    refine errok_bind (errok_pyGet ha _ _ _) fun pr => ?_
    exact errok_ite (errok_pure _) (errok_pure _)
  refine errok_ite ?_ fb
  exact errok_ite (errok_pure _)
    (errok_ite (errok_pure _) (errok_ite (errok_pure _) fb))

theorem errok_copilotExtractContent {P : BErr → Prop} (ha : P .attr)
    (ht : P .type) (m : PyVal) :
    ErrOk P (copilotExtractContent m) := by
  unfold copilotExtractContent
  refine errok_bind (errok_pyGet ha _ _ _) fun c1 => ?_
  refine errok_bind (errok_pyGet ha _ _ _) fun c2 => ?_
  refine errok_bind (errok_pyGet ha _ _ _) fun c3 => ?_
  refine errok_bind (errok_pyGet ha _ _ _) fun c4 => ?_
  refine errok_bind (errok_pyGet ha _ _ _) fun c5 => ?_
  refine errok_bind (errok_pyGet ha _ _ _) fun c6 => ?_
  cases pyOr (pyOr (pyOr (pyOr (pyOr (pyOr c1 c2) c3) c4) c5) c6)
      (.str "") with
  | dict kvs => exact errok_pure _
  | list l =>
      refine errok_bind (errok_mapM ?_ _) fun strs => errok_pure _
      intro v
      cases v <;> trivial
  | str s => exact errok_pure _
  | int n => exact errok_pure _
  | bool b => exact errok_pure _
  | none => exact errok_pure _

theorem errok_copilotDetectContentType {P : BErr → Prop} (ha : P .attr)
    (ht : P .type) (m : PyVal) :
    ErrOk P (copilotDetectContentType m) := by
  unfold copilotDetectContentType
  refine errok_bind (errok_copilotExtractContent ha ht _) fun content => ?_
  refine errok_bind (errok_pyGet ha _ _ _) fun hc => ?_
  refine errok_bind (errok_pyGet ha _ _ _) fun ic => ?_
  exact errok_ite (errok_pure _) (errok_pure _)

theorem errok_copilotTitleLoop {P : BErr → Prop} (ha : P .attr)
    (ht : P .type) (msgs : List PyVal) :
    ErrOk P (copilotTitleLoop msgs) := by
  induction msgs with
  | nil => trivial
  | cons m rest ih =>
      simp only [copilotTitleLoop]
      refine errok_bind (errok_copilotDetermineRole ha _) fun r => ?_
      refine errok_ite ?_ ih
      refine errok_bind (errok_copilotExtractContent ha ht _) fun content => ?_
      exact errok_ite (errok_pure _) ih

theorem errok_copilotExtractTitle {P : BErr → Prop} (ha : P .attr)
    (ht : P .type) (item : PyVal) :
    ErrOk P (copilotExtractTitle item) := by
  unfold copilotExtractTitle
  refine errok_bind (errok_pyGet ha _ _ _) fun m1 => ?_
  refine errok_bind (errok_pyGet ha _ _ _) fun m2 => ?_
  refine errok_bind (errok_pyIter ht _) fun msgs => ?_
  exact errok_copilotTitleLoop ha ht _

theorem errok_copilotMsgFields {P : BErr → Prop} (ha : P .attr)
    (ho : P .overflow) (ht : P .type) (cc : Option Instant) (m : PyVal) :
    ErrOk P (copilotMsgFields cc m) := by
  unfold copilotMsgFields
  refine errok_bind (errok_copilotDetermineRole ha _) fun role => ?_
  refine errok_bind (errok_copilotExtractContent ha ht _) fun content => ?_
  refine errok_ite (errok_pure _) ?_
  refine errok_bind (errok_pyGet ha _ _ _) fun t1 => ?_
  refine errok_bind (errok_pyGet ha _ _ _) fun t2 => ?_
  refine errok_bind (errok_pyGet ha _ _ _) fun t3 => ?_
  refine errok_bind (errok_copilotPT ho _) fun mc => ?_
  refine errok_bind (errok_pyGet ha _ _ _) fun i1 => ?_
  refine errok_bind (errok_pyGet ha _ _ _) fun i2 => ?_
  refine errok_bind (errok_copilotDetectContentType ha ht _) fun ct => ?_
  refine errok_bind (errok_pyGet ha _ _ _) fun m1 => ?_
  exact errok_pure _

theorem errok_copilotMessages {P : BErr → Prop} (ha : P .attr)
    (ho : P .overflow) (ht : P .type) (cc : Option Instant) :
    ∀ (idx : Nat) (msgs : List PyVal),
      ErrOk P (copilotMessages cc idx msgs) := by
  intro idx msgs
  induction msgs generalizing idx with
  | nil => trivial
  | cons m ms ih =>
      simp only [copilotMessages]
      refine errok_bind (errok_copilotMsgFields ha ho ht _ _) fun f => ?_
      refine errok_bind (ih _) fun rest => ?_
      cases f <;> trivial

theorem errok_copilotItem {P : BErr → Prop} (ha : P .attr)
    (ho : P .overflow) (ht : P .type) (item : PyVal) :
    ErrOk P (copilotItem item) := by
  unfold copilotItem
  refine errok_bind (errok_pyGet ha _ _ _) fun i1 => ?_
  refine errok_bind (errok_pyGet ha _ _ _) fun i2 => ?_
  refine errok_bind (errok_pyGet ha _ _ _) fun i3 => ?_
  refine errok_bind (errok_pyGet ha _ _ _) fun t1 => ?_
  refine errok_bind (errok_pyGet ha _ _ _) fun t2 => ?_
  refine errok_bind ?_ fun title0 => ?_
  · refine errok_ite (errok_pure _) (errok_ite (errok_pure _) ?_)
    exact errok_bind (errok_copilotExtractTitle ha ht _) fun s => errok_pure _
  · refine errok_bind (errok_pyGet ha _ _ _) fun c1 => ?_
    refine errok_bind (errok_pyGet ha _ _ _) fun c2 => ?_
    refine errok_bind (errok_pyGet ha _ _ _) fun c3 => ?_
    refine errok_bind (errok_pyGet ha _ _ _) fun c4 => ?_
    refine errok_bind (errok_copilotPT ho _) fun createdAt => ?_
    refine errok_bind (errok_pyGet ha _ _ _) fun u1 => ?_
    refine errok_bind (errok_pyGet ha _ _ _) fun u2 => ?_
    refine errok_bind (errok_pyGet ha _ _ _) fun u3 => ?_
    refine errok_bind (errok_copilotPT ho _) fun updatedAt => ?_
    refine errok_bind (errok_pyGet ha _ _ _) fun m1 => ?_
    refine errok_bind (errok_pyGet ha _ _ _) fun m2 => ?_
    refine errok_bind (errok_pyGet ha _ _ _) fun m3 => ?_
    refine errok_bind (errok_pyIter ht _) fun msgsRaw => ?_
    refine errok_bind (errok_copilotMessages ha ho ht _ _ _) fun ms => ?_
    exact errok_pure _

theorem errok_chatgptShouldInclude {P : BErr → Prop} (ha : P .attr)
    (m : PyVal) : ErrOk P (chatgptShouldInclude m) := by
  unfold chatgptShouldInclude
  refine errok_ite (errok_pure _) ?_
  refine errok_bind (errok_pyGet ha _ _ _) fun metadata => ?_
  refine errok_bind (errok_pyGet ha _ _ _) fun hidden => ?_
  refine errok_ite (errok_pure _) ?_
  refine errok_bind (errok_pyGet ha _ _ _) fun content => ?_
  refine errok_bind (errok_pyGet ha _ _ _) fun ct => ?_
  refine errok_ite (errok_pure _) ?_
  refine errok_bind (errok_pyGet ha _ _ _) fun author => ?_
  refine errok_bind (errok_pyGet ha _ _ _) fun role => ?_
  exact errok_ite (errok_pure _) (errok_ite (errok_pure _) (errok_pure _))

theorem errok_chatgptMsgFields {P : BErr → Prop} (ha : P .attr)
    (ho : P .overflow) (ht : P .type) (m : PyVal) :
    ErrOk P (chatgptMsgFields m) := by
  unfold chatgptMsgFields
  refine errok_bind (errok_pyGet ha _ _ _) fun author => ?_
  refine errok_bind (errok_pyGet ha _ _ _) fun role => ?_
  refine errok_bind (errok_pyGet ha _ _ _) fun content => ?_
  refine errok_bind (errok_pyGet ha _ _ _) fun ct => ?_
  refine errok_bind (errok_pyGet ha _ _ _) fun parts => ?_
  refine errok_bind ?_ fun textContent => ?_
  · exact errok_ite
      (errok_bind (errok_pyIter ht _) fun ps => errok_pure _)
      (errok_pure _)
  · refine errok_ite (errok_pure _) ?_
    refine errok_bind (errok_pyGet ha _ _ _) fun createTime => ?_
    refine errok_bind
      (errok_ite (errok_catch_ftv ho _) (errok_pure _)) fun createdAt => ?_
    refine errok_bind (errok_pyGet ha _ _ _) fun metadata => ?_
    refine errok_bind (errok_pyGet ha _ _ _) fun mdl => ?_
    refine errok_bind (errok_pyGet ha _ _ _) fun mid => ?_
    exact errok_pure _

theorem errok_chatgptParseMessage {P : BErr → Prop} (ha : P .attr)
    (ho : P .overflow) (ht : P .type) (m : PyVal) (order : Nat) :
    ErrOk P (chatgptParseMessage m order) := by
  unfold chatgptParseMessage
  exact errok_bind (errok_chatgptMsgFields ha ho ht _) fun f => errok_pure _

theorem errok_chatgptTraverse {P : BErr → Prop} (ha : P .attr)
    (ho : P .overflow) (ht : P .type) (hr : P .recursion)
    (kvs : List (String × PyVal)) :
    ∀ (fuel : Nat) (nid : PyVal) (order : Nat),
      ErrOk P (chatgptTraverse kvs fuel nid order) := by
  intro fuel
  induction fuel with
  | zero => intro nid order; exact hr
  | succ n ih =>
      intro nid order
      simp only [chatgptTraverse]
      refine errok_bind (errok_pyDictGetVal ht _ _) fun node => ?_
      refine errok_ite (errok_pure _) ?_
      refine errok_bind (errok_pyGet ha _ _ _) fun message => ?_
      refine errok_bind
        (errok_ite (errok_chatgptShouldInclude ha _) (errok_pure _))
        fun inc => ?_
      refine errok_bind ?_ fun st => ?_
      · refine errok_ite ?_ (errok_pure _)
        refine errok_bind (errok_chatgptParseMessage ha ho ht _ _) fun md => ?_
        cases md <;> exact errok_pure _
      · refine errok_bind (errok_pyGet ha _ _ _) fun children => ?_
        refine errok_bind (errok_pyIter ht _) fun cl => ?_
        refine errok_foldlM ?_ _ _
        intro acc c
        exact errok_bind (ih _ _) fun r => errok_pure _

theorem errok_chatgptFindRoot {P : BErr → Prop} (ha : P .attr)
    (kvs : List (String × PyVal)) : ErrOk P (chatgptFindRoot kvs) := by
  induction kvs with
  | nil => trivial
  | cons kv rest ih =>
      obtain ⟨k, node⟩ := kv
      simp only [chatgptFindRoot]
      refine errok_bind (errok_pyGet ha _ _ _) fun p => ?_
      cases p <;> trivial

theorem errok_chatgptExtractMessages {P : BErr → Prop} (ha : P .attr)
    (ho : P .overflow) (ht : P .type) (hr : P .recursion)
    (fuel : Nat) (mapping : PyVal) :
    ErrOk P (chatgptExtractMessages fuel mapping) := by
  unfold chatgptExtractMessages
  refine errok_ite (errok_pure _) ?_
  cases mapping with
  | dict kvs =>
      refine errok_bind (errok_chatgptFindRoot ha _) fun r => ?_
      refine errok_bind (errok_chatgptTraverse ha ho ht hr _ _ _ _)
        fun st => ?_
      exact errok_pure _
  | str s => exact ha
  | int n => exact ha
  | bool b => exact ha
  | none => exact ha
  | list l => exact ha

theorem errok_chatgptIncluded {P : BErr → Prop} (ha : P .attr)
    (m : PyVal) : ErrOk P (chatgptIncluded m) := by
  unfold chatgptIncluded
  exact errok_ite (errok_chatgptShouldInclude ha _) (errok_pure _)

theorem errok_chatgptVisit {P : BErr → Prop} (ha : P .attr)
    (ho : P .overflow) (ht : P .type) (m : PyVal) (inc : Bool)
    (order : Nat) : ErrOk P (chatgptVisit m inc order) := by
  unfold chatgptVisit
  refine errok_ite ?_ (errok_pure _)
  refine errok_bind (errok_chatgptParseMessage ha ho ht _ _) fun md => ?_
  cases md <;> exact errok_pure _

theorem errok_chatgptItem {P : BErr → Prop} (ha : P .attr)
    (ho : P .overflow) (ht : P .type) (hr : P .recursion)
    (fuel : Nat) (item : PyVal) : ErrOk P (chatgptItem fuel item) := by
  unfold chatgptItem
  refine errok_bind (errok_pyGet ha _ _ _) fun title => ?_
  refine errok_bind (errok_pyGet ha _ _ _) fun createTime => ?_
  refine errok_bind ?_ fun createdAt => ?_
  · cases createTime <;> first | exact errok_pure _ | exact errok_catch_ftv ho _
  · refine errok_bind (errok_pyGet ha _ _ _) fun updateTime => ?_
    refine errok_bind ?_ fun updatedAt => ?_
    · cases updateTime <;>
        first | exact errok_pure _ | exact errok_catch_ftv ho _
    · refine errok_bind (errok_pyGet ha _ _ _) fun mapping => ?_
      refine errok_bind (errok_chatgptExtractMessages ha ho ht hr _ _)
        fun messages => ?_
      refine errok_bind (errok_pyGet ha _ _ _) fun i1 => ?_
      refine errok_bind (errok_pyGet ha _ _ _) fun i2 => ?_
      exact errok_pure _

/-! ## Computation lemmas -/

@[simp] theorem except_bind_ok {α β : Type} (a : α)
    (f : α → Except BErr β) : (Except.ok a >>= f) = f a := rfl

@[simp] theorem except_bind_error {α β : Type} (e : BErr)
    (f : α → Except BErr β) :
    ((Except.error e : Except BErr α) >>= f) = .error e := rfl

@[simp] theorem except_pure {α : Type} (a : α) :
    (pure a : Except BErr α) = .ok a := rfl

theorem bind_ok_iff {α β : Type} {x : Except BErr α}
    {f : α → Except BErr β} {b : β} :
    (x >>= f) = .ok b ↔ ∃ a, x = .ok a ∧ f a = .ok b := by
  cases x <;> simp

@[simp] theorem pyGet_dict (kvs : List (String × PyVal)) (k : String)
    (d : PyVal) : pyGet (.dict kvs) k d = .ok (dGetD kvs k d) := rfl

@[simp] theorem withIdx_orderIndex (f : MsgFields) (i : Nat) :
    (f.withIdx i).orderIndex = i := rfl

@[simp] theorem withIdx_createdAt (f : MsgFields) (i : Nat) :
    (f.withIdx i).createdAt = f.createdAt := rfl

theorem pyEqStr_iff (v : PyVal) (s : String) :
    pyEqStr v s = true ↔ v = .str s := by
  cases v <;> simp [pyEqStr]

theorem pyEqStr_false_iff (v : PyVal) (s : String) :
    pyEqStr v s = false ↔ ¬ v = .str s := by
  rw [← pyEqStr_iff]
  cases pyEqStr v s <;> simp

theorem errok_ne_value {α : Type} {r : Except BErr α}
    (h : ErrOk NotValue r) (m : String) : r ≠ .error (.value m) := by
  cases r with
  | ok a => simp
  | error e =>
      intro hc
      injection hc with he
      exact h m (by rw [he])

theorem errok_ne_recursion {α : Type} {r : Except BErr α}
    (h : ErrOk NotRec r) : r ≠ .error .recursion := by
  cases r with
  | ok a => simp
  | error e =>
      intro hc
      injection hc with he
      exact h (by rw [he])

theorem nr_attr : NotRec .attr := fun h => nomatch h
theorem nr_type : NotRec .type := fun h => nomatch h
theorem nr_index : NotRec .index := fun h => nomatch h
theorem nr_overflow : NotRec .overflow := fun h => nomatch h
theorem nr_value (m : String) : NotRec (.value m) := fun h => nomatch h

/-! ## Order-index bookkeeping lemmas -/

theorem range'_app (s m n : Nat) :
    List.range' s m ++ List.range' (s + m) n = List.range' s (m + n) := by
  have h := List.range'_append s m n 1
  simp only [one_mul] at h
  rw [Nat.add_comm n m] at h
  exact h

/-- A message emitted by `chatgpt.parse_message` carries exactly the
`order` it was called with. -/
theorem chatgptParseMessage_idx (m : PyVal) (order : Nat) (d : MsgRec)
    (h : chatgptParseMessage m order = .ok (some d)) :
    d.orderIndex = order := by
  unfold chatgptParseMessage at h
  rw [bind_ok_iff] at h
  obtain ⟨f, hf, h⟩ := h
  cases f with
  | none => simp at h
  | some fl =>
      simp only [except_pure, Option.map_some', Except.ok.injEq,
        Option.some.injEq] at h
      rw [← h]
      rfl

/-- The `for child_id in children` fold preserves the running-count
invariant: if the accumulator's messages carry the contiguous indices
`base..`, so does the fold's result. -/
theorem chatgptFold_contig (kvs : List (String × PyVal)) (fuel : Nat)
    (IH : ∀ nid order msgs o2,
      chatgptTraverse kvs fuel nid order = .ok (msgs, o2) →
      msgs.map (·.orderIndex) = List.range' order msgs.length ∧
      o2 = order + msgs.length) :
    ∀ (cl : List PyVal) (acc : List MsgRec × Nat) (base : Nat)
      (msgs : List MsgRec) (o2 : Nat),
      acc.1.map (·.orderIndex) = List.range' base acc.1.length →
      acc.2 = base + acc.1.length →
      (cl.foldlM (fun acc c => do
        let r ← chatgptTraverse kvs fuel c acc.2
        pure (acc.1 ++ r.1, r.2)) acc) = .ok (msgs, o2) →
      msgs.map (·.orderIndex) = List.range' base msgs.length ∧
      o2 = base + msgs.length := by
  intro cl
  induction cl with
  | nil =>
      intro acc base msgs o2 hmap hcnt h
      obtain ⟨a1, a2⟩ := acc
      simp only [List.foldlM, except_pure, Except.ok.injEq,
        Prod.mk.injEq] at h
      obtain ⟨rfl, rfl⟩ := h
      exact ⟨hmap, hcnt⟩
  | cons c cs ih =>
      intro acc base msgs o2 hmap hcnt h
      simp only [List.foldlM] at h
      rw [bind_ok_iff] at h
      obtain ⟨acc', hstep, h⟩ := h
      rw [bind_ok_iff] at hstep
      obtain ⟨r, htrav, hpure⟩ := hstep
      simp only [except_pure, Except.ok.injEq] at hpure
      obtain ⟨hr1, hr2⟩ := IH c acc.2 r.1 r.2 (by rw [← htrav])
      refine ih acc' base msgs o2 ?_ ?_ h
      · rw [← hpure]
        simp only [List.map_append, List.length_append]
        rw [hmap, hr1, hcnt, range'_app]
      · rw [← hpure]
        simp only [List.length_append]
        rw [hr2, hcnt]
        omega

/-- `chatgpt.traverse` emits messages whose `order_index` values are the
contiguous range starting at the running counter it was called with, and
returns the counter advanced by the number of emitted messages. -/
theorem chatgptTraverse_contig (kvs : List (String × PyVal)) :
    ∀ (fuel : Nat) (nid : PyVal) (order : Nat) (msgs : List MsgRec)
      (o2 : Nat),
      chatgptTraverse kvs fuel nid order = .ok (msgs, o2) →
      msgs.map (·.orderIndex) = List.range' order msgs.length ∧
      o2 = order + msgs.length := by
  intro fuel
  induction fuel with
  | zero => intro nid order msgs o2 h; simp [chatgptTraverse] at h
  | succ n ih =>
      intro nid order msgs o2 h
      simp only [chatgptTraverse] at h
      rw [bind_ok_iff] at h
      obtain ⟨node, hnode, h⟩ := h
      split at h
      · simp only [except_pure, Except.ok.injEq, Prod.mk.injEq] at h
        obtain ⟨rfl, rfl⟩ := h
        simp
      · rw [bind_ok_iff] at h
        obtain ⟨message, hmsg, h⟩ := h
        rw [bind_ok_iff] at h
        obtain ⟨inc, hinc, h⟩ := h
        rw [bind_ok_iff] at h
        obtain ⟨st, hst, h⟩ := h
        rw [bind_ok_iff] at h
        obtain ⟨children, hch, h⟩ := h
        rw [bind_ok_iff] at h
        obtain ⟨cl, hcl, h⟩ := h
        have hst' : st.1.map (·.orderIndex) =
            List.range' order st.1.length ∧ st.2 = order + st.1.length := by
          unfold chatgptVisit at hst
          split at hst
          · rw [bind_ok_iff] at hst
            obtain ⟨md, hmd, hst⟩ := hst
            cases md with
            | some d =>
                simp only [except_pure, Except.ok.injEq] at hst
                obtain rfl : st = ([d], order + 1) := hst.symm
                refine ⟨?_, rfl⟩
                simp only [List.map_cons, List.map_nil, List.length_cons,
                  List.length_nil, chatgptParseMessage_idx _ _ _ hmd]
                simp [List.range'_one]
            | none =>
                simp only [except_pure, Except.ok.injEq] at hst
                obtain rfl : st = ([], order) := hst.symm
                simp
          · simp only [except_pure, Except.ok.injEq] at hst
            obtain rfl : st = ([], order) := hst.symm
            simp
        exact chatgptFold_contig kvs n ih cl st order msgs o2
          hst'.1 hst'.2 h

/-- `extract_messages_from_mapping` output indices are `0..len-1`. -/
theorem chatgptExtract_contig (fuel : Nat) (mapping : PyVal)
    (msgs : List MsgRec)
    (h : chatgptExtractMessages fuel mapping = .ok msgs) :
    msgs.map (·.orderIndex) = List.range msgs.length := by
  rw [List.range_eq_range']
  unfold chatgptExtractMessages at h
  split at h
  · simp only [except_pure, Except.ok.injEq] at h
    rw [← h]
    simp
  · cases mapping with
    | dict kvs =>
        rw [bind_ok_iff] at h
        obtain ⟨r, hr, h⟩ := h
        rw [bind_ok_iff] at h
        obtain ⟨st, hst, h⟩ := h
        simp only [except_pure, Except.ok.injEq] at h
        rw [← h]
        exact (chatgptTraverse_contig kvs fuel _ 0 st.1 st.2
          (by rw [← hst])).1
    | str s => simp at h
    | int n => simp at h
    | bool b => simp at h
    | none => simp at h
    | list l => simp at h

/-- The Claude message loop assigns `order_index` equal to the message's
`enumerate` position in the source array (skipped messages still consume
positions). -/
theorem claudeMessages_kept (mdl : PyVal) :
    ∀ (idx : Nat) (msgs : List PyVal) (res : List MsgRec),
      claudeMessages mdl idx msgs = .ok res →
      res.map (·.orderIndex) = claudeKeptIdx mdl idx msgs := by
  intro idx msgs
  induction msgs generalizing idx with
  | nil =>
      intro res h
      simp only [claudeMessages, Except.ok.injEq] at h
      rw [← h]
      rfl
  | cons m ms ih =>
      intro res h
      simp only [claudeMessages] at h
      rw [bind_ok_iff] at h
      obtain ⟨f, hf, h⟩ := h
      rw [bind_ok_iff] at h
      obtain ⟨rest, hrest, h⟩ := h
      cases f with
      | some fl =>
          simp only [Except.ok.injEq] at h
          rw [← h]
          simp only [claudeKeptIdx, hf, List.map_cons, withIdx_orderIndex]
          rw [ih idx.succ rest hrest]
      | none =>
          simp only [Except.ok.injEq] at h
          rw [← h]
          simp only [claudeKeptIdx, hf]
          exact ih idx.succ rest hrest

/-- The Gemini message loop assigns `order_index` equal to the message's
`enumerate` position in the source array. -/
theorem geminiMessages_kept (cc : Option Instant) (mdl : PyVal) :
    ∀ (idx : Nat) (msgs : List PyVal) (res : List MsgRec),
      geminiMessages cc mdl idx msgs = .ok res →
      res.map (·.orderIndex) = geminiKeptIdx cc mdl idx msgs := by
  intro idx msgs
  induction msgs generalizing idx with
  | nil =>
      intro res h
      simp only [geminiMessages, Except.ok.injEq] at h
      rw [← h]
      rfl
  | cons m ms ih =>
      intro res h
      simp only [geminiMessages] at h
      rw [bind_ok_iff] at h
      obtain ⟨f, hf, h⟩ := h
      rw [bind_ok_iff] at h
      obtain ⟨rest, hrest, h⟩ := h
      cases f with
      | some fl =>
          simp only [Except.ok.injEq] at h
          rw [← h]
          simp only [geminiKeptIdx, hf, List.map_cons, withIdx_orderIndex]
          rw [ih idx.succ rest hrest]
      | none =>
          simp only [Except.ok.injEq] at h
          rw [← h]
          simp only [geminiKeptIdx, hf]
          exact ih idx.succ rest hrest

/-- The Copilot message loop assigns `order_index` equal to the message's
`enumerate` position in the source array. -/
theorem copilotMessages_kept (cc : Option Instant) :
    ∀ (idx : Nat) (msgs : List PyVal) (res : List MsgRec),
      copilotMessages cc idx msgs = .ok res →
      res.map (·.orderIndex) = copilotKeptIdx cc idx msgs := by
  intro idx msgs
  induction msgs generalizing idx with
  | nil =>
      intro res h
      simp only [copilotMessages, Except.ok.injEq] at h
      rw [← h]
      rfl
  | cons m ms ih =>
      intro res h
      simp only [copilotMessages] at h
      rw [bind_ok_iff] at h
      obtain ⟨f, hf, h⟩ := h
      rw [bind_ok_iff] at h
      obtain ⟨rest, hrest, h⟩ := h
      cases f with
      | some fl =>
          simp only [Except.ok.injEq] at h
          rw [← h]
          simp only [copilotKeptIdx, hf, List.map_cons, withIdx_orderIndex]
          rw [ih idx.succ rest hrest]
      | none =>
          simp only [Except.ok.injEq] at h
          rw [← h]
          simp only [copilotKeptIdx, hf]
          exact ih idx.succ rest hrest

/-! ## Message `created_at` derivation lemmas -/

/-- A kept Claude message's `created_at` is exactly the message's own
parsed timestamp: there is no fallback to the conversation's. -/
theorem claudeMsgFields_createdAt (mdl : PyVal)
    (kvs : List (String × PyVal)) (f : MsgFields)
    (h : claudeMsgFields mdl (.dict kvs) = .ok (some f)) :
    claudeParseTimestamp (dGetD kvs "created_at" .none) = .ok f.createdAt := by
  unfold claudeMsgFields at h
  simp only [pyGet_dict, except_bind_ok] at h
  rw [bind_ok_iff] at h
  obtain ⟨c, hc, h⟩ := h
  split at h
  · simp at h
  · rw [bind_ok_iff] at h
    obtain ⟨mc, hmc, h⟩ := h
    simp only [except_pure, Except.ok.injEq, Option.some.injEq] at h
    subst h
    exact hmc

/-- A kept Gemini message's `created_at` falls back to the conversation's
`created_at` when the message's own timestamp parses to absent, and is the
message's own instant otherwise. -/
theorem geminiMsgFields_createdAt (cc : Option Instant) (mdl : PyVal)
    (kvs : List (String × PyVal)) (f : MsgFields)
    (h : geminiMsgFields cc mdl (.dict kvs) = .ok (some f)) :
    (geminiParseTimestamp (geminiOwnTs kvs) = .ok Option.none →
      f.createdAt = cc) ∧
    (∀ t, geminiParseTimestamp (geminiOwnTs kvs) = .ok (some t) →
      f.createdAt = some t) := by
  unfold geminiMsgFields at h
  simp only [pyGet_dict, except_bind_ok] at h
  rw [bind_ok_iff] at h
  obtain ⟨role, hrole, h⟩ := h
  rw [bind_ok_iff] at h
  obtain ⟨content, hcontent, h⟩ := h
  split at h
  · simp at h
  · rw [bind_ok_iff] at h
    obtain ⟨mc, hmc, h⟩ := h
    simp only [except_pure, Except.ok.injEq, Option.some.injEq] at h
    subst h
    have hmc' : geminiParseTimestamp (geminiOwnTs kvs) = .ok mc := hmc
    constructor
    · intro hnone
      rw [hmc'] at hnone
      injection hnone with hh
      subst hh
      rfl
    · intro t ht
      rw [hmc'] at ht
      injection ht with hh
      subst hh
      rfl

/-- A kept Copilot message's `created_at` falls back to the
conversation's `created_at` when the message's own timestamp parses to
absent, and is the message's own instant otherwise. -/
theorem copilotMsgFields_createdAt (cc : Option Instant)
    (kvs : List (String × PyVal)) (f : MsgFields)
    (h : copilotMsgFields cc (.dict kvs) = .ok (some f)) :
    (copilotParseTimestamp (copilotOwnTs kvs) = .ok Option.none →
      f.createdAt = cc) ∧
    (∀ t, copilotParseTimestamp (copilotOwnTs kvs) = .ok (some t) →
      f.createdAt = some t) := by
  unfold copilotMsgFields at h
  simp only [pyGet_dict, except_bind_ok] at h
  rw [bind_ok_iff] at h
  obtain ⟨role, hrole, h⟩ := h
  rw [bind_ok_iff] at h
  obtain ⟨content, hcontent, h⟩ := h
  split at h
  · simp at h
  · rw [bind_ok_iff] at h
    obtain ⟨mc, hmc, h⟩ := h
    rw [bind_ok_iff] at h
    obtain ⟨ct, hct, h⟩ := h
    simp only [except_pure, Except.ok.injEq, Option.some.injEq] at h
    subst h
    have hmc' : copilotParseTimestamp (copilotOwnTs kvs) = .ok mc := hmc
    constructor
    · intro hnone
      rw [hmc'] at hnone
      injection hnone with hh
      subst hh
      rfl
    · intro t ht
      rw [hmc'] at ht
      injection ht with hh
      subst hh
      rfl

/-- A kept ChatGPT message's `created_at` is exactly the message's own
`create_time` conversion: there is no fallback to the conversation's. -/
theorem chatgptMsgFields_createdAt (kvs : List (String × PyVal))
    (f : MsgFields)
    (h : chatgptMsgFields (.dict kvs) = .ok (some f)) :
    chatgptMsgTs (dGetD kvs "create_time" .none) = .ok f.createdAt := by
  unfold chatgptMsgFields at h
  simp only [pyGet_dict, except_bind_ok] at h
  rw [bind_ok_iff] at h
  obtain ⟨role, hrole, h⟩ := h
  rw [bind_ok_iff] at h
  obtain ⟨ct, hct, h⟩ := h
  rw [bind_ok_iff] at h
  obtain ⟨parts, hparts, h⟩ := h
  rw [bind_ok_iff] at h
  obtain ⟨textContent, htext, h⟩ := h
  split at h
  · simp at h
  · rw [bind_ok_iff] at h
    obtain ⟨ca, hca, h⟩ := h
    rw [bind_ok_iff] at h
    obtain ⟨mdl, hmdl, h⟩ := h
    simp only [except_pure, Except.ok.injEq, Option.some.injEq] at h
    subst h
    exact hca

/-! ## Format-error characterization lemmas -/

theorem claude_fmt_iff (p : PyVal) :
    parse_claude_export p =
      .error (.value "Unrecognized Claude export format") ↔
    pyTruthy (claudeLocate p) = false := by
  constructor
  · intro h
    by_contra hc
    have ht : pyTruthy (claudeLocate p) = true := by
      cases hb : pyTruthy (claudeLocate p)
      · exact absurd hb hc
      · rfl
    have herr : ErrOk NotValue (parse_claude_export p) := by
      unfold parse_claude_export
      rw [if_neg (by rw [ht]; simp)]
      exact errok_bind (errok_pyIter nv_type _) fun items =>
        errok_mapM (fun i => errok_claudeItem nv_attr nv_overflow nv_type i) _
    exact absurd h (errok_ne_value herr _)
  · intro h
    unfold parse_claude_export
    rw [if_pos h]

theorem gemini_fmt_iff (p : PyVal) :
    parse_gemini_export p =
      .error (.value "Unrecognized Gemini export format") ↔
    pyTruthy (geminiLocate p) = false := by
  constructor
  · intro h
    by_contra hc
    have ht : pyTruthy (geminiLocate p) = true := by
      cases hb : pyTruthy (geminiLocate p)
      · exact absurd hb hc
      · rfl
    have herr : ErrOk NotValue (parse_gemini_export p) := by
      unfold parse_gemini_export
      rw [if_neg (by rw [ht]; simp)]
      exact errok_bind (errok_pyIter nv_type _) fun items =>
        errok_mapM
          (fun i => errok_geminiItem nv_attr nv_overflow nv_type nv_index i) _
    exact absurd h (errok_ne_value herr _)
  · intro h
    unfold parse_gemini_export
    rw [if_pos h]

theorem copilot_fmt_iff (p : PyVal) :
    parse_copilot_export p =
      .error (.value "Unrecognized Copilot export format") ↔
    pyTruthy (copilotLocate p) = false := by
  constructor
  · intro h
    by_contra hc
    have ht : pyTruthy (copilotLocate p) = true := by
      cases hb : pyTruthy (copilotLocate p)
      · exact absurd hb hc
      · rfl
    have herr : ErrOk NotValue (parse_copilot_export p) := by
      unfold parse_copilot_export
      rw [if_neg (by rw [ht]; simp)]
      exact errok_bind (errok_pyIter nv_type _) fun items =>
        errok_mapM
          (fun i => errok_copilotItem nv_attr nv_overflow nv_type i) _
    exact absurd h (errok_ne_value herr _)
  · intro h
    unfold parse_copilot_export
    rw [if_pos h]

theorem chatgpt_fmt_iff (fuel : Nat) (p : PyVal) :
    parse_chatgpt_export fuel p =
      .error (.value "Unrecognized ChatGPT export format") ↔
    chatgptLocate p = .none := by
  constructor
  · intro h
    by_contra hc
    have herr : ErrOk NotValue (parse_chatgpt_export fuel p) := by
      unfold parse_chatgpt_export
      cases hl : chatgptLocate p
      case none => exact absurd hl hc
      all_goals
        exact errok_bind (errok_pyIter nv_type _) fun items =>
          errok_mapM (fun i => errok_chatgptItem nv_attr nv_overflow
            nv_type nv_recursion _ i) _
    exact absurd h (errok_ne_value herr _)
  · intro h
    unfold parse_chatgpt_export
    simp only [h]

/-! ## Inclusion-filter characterization (ChatGPT) -/

/-- On a (truthy) dict-shaped message whose `metadata`, `content` and
`author` are dicts (or absent, defaulting to empty dicts),
`should_include_message` excludes the message exactly when the metadata
marks it visually hidden, or the content type is `user_editable_context`
or `system_error`, or the author role is outside {user, assistant, tool}. -/
theorem chatgptShouldInclude_iff (mkvs m c a : List (String × PyVal))
    (hmt : pyTruthy (.dict mkvs) = true)
    (hm : dGetD mkvs "metadata" (.dict []) = .dict m)
    (hc : dGetD mkvs "content" (.dict []) = .dict c)
    (ha : dGetD mkvs "author" (.dict []) = .dict a) :
    (chatgptShouldInclude (.dict mkvs) = .ok false ↔
      (pyTruthy (dGetD m "is_visually_hidden_from_conversation" .none)
          = true ∨
       dGetD c "content_type" (.str "") = .str "user_editable_context" ∨
       dGetD c "content_type" (.str "") = .str "system_error" ∨
       ¬(dGetD a "role" (.str "") = .str "user" ∨
         dGetD a "role" (.str "") = .str "assistant" ∨
         dGetD a "role" (.str "") = .str "tool"))) := by
  have hb : chatgptShouldInclude (.dict mkvs) = .ok (
      if pyTruthy (dGetD m "is_visually_hidden_from_conversation" .none)
        then false
      else if pyEqStr (dGetD c "content_type" (.str ""))
          "user_editable_context" ||
        pyEqStr (dGetD c "content_type" (.str "")) "system_error" then false
      else if pyEqStr (dGetD a "role" (.str "")) "user" ||
        pyEqStr (dGetD a "role" (.str "")) "assistant" then true
      else if pyEqStr (dGetD a "role" (.str "")) "tool" then true
      else false) := by
    unfold chatgptShouldInclude
    rw [if_neg (by rw [hmt]; simp)]
    simp only [pyGet_dict, except_bind_ok, hm, hc, ha]
    split_ifs <;> rfl
  rw [hb]
  simp only [Except.ok.injEq]
  split_ifs with h1 h2 h3 h4 <;>
    simp_all [pyEqStr_iff, pyEqStr_false_iff] <;> tauto

/-! ## Copilot title lemmas -/

/-- First-pass title extraction from a conversation whose
`messages`/`exchanges` chain resolves to a single user message with
nonempty extracted content: the first 60 characters, with `"..."`
appended when the content is longer. -/
theorem copilotExtractTitle_single (kvs : List (String × PyVal))
    (msg : PyVal) (content : String)
    (hmsgs : pyOr (pyOr (dGetD kvs "messages" .none)
      (dGetD kvs "exchanges" .none)) (.list []) = .list [msg])
    (hrole : copilotDetermineRole msg = .ok "user")
    (hcontent : copilotExtractContent msg = .ok content)
    (hne : content ≠ "") :
    copilotExtractTitle (.dict kvs) =
      .ok (content.take 60 ++
        (if content.length > 60 then "..." else "")) := by
  unfold copilotExtractTitle
  simp only [pyGet_dict, except_bind_ok, hmsgs]
  show copilotTitleLoop [msg] = _
  simp only [copilotTitleLoop, hrole, except_bind_ok, if_pos, hcontent]
  rw [if_pos hne]
  rfl

/-! ## Copilot content-join lemmas -/

/-- The collect-then-join loop of `copilot.extract_content` succeeds on
well-shaped parts and produces each element's reference text. -/
theorem copilotParts_mapM (parts : List PyVal)
    (hok : ∀ p ∈ parts, PartOk p) :
    ((copilotParts parts).mapM fun v =>
      match v with
      | .str s => Except.ok s
      | _ => Except.error BErr.type) =
    .ok (parts.filterMap copilotPartText) := by
  induction parts with
  | nil => rfl
  | cons p rest ih =>
      have hrest : ∀ q ∈ rest, PartOk q := fun q hq =>
        hok q (List.mem_cons_of_mem _ hq)
      cases p with
      | str s =>
          simp only [copilotParts, List.mapM_cons, ih hrest]
          rfl
      | dict pkvs =>
          obtain ⟨s, hs⟩ := hok (.dict pkvs) (List.mem_cons_self _ _)
            pkvs rfl
          simp only [copilotParts, hs, List.mapM_cons, ih hrest]
          simp only [except_bind_ok, except_pure]
          simp only [List.filterMap_cons]
          have : copilotPartText (.dict pkvs) = some s := by
            simp only [copilotPartText, hs]
          rw [this]
      | int n =>
          simp only [copilotParts, ih hrest]
          simp [List.filterMap_cons, copilotPartText]
      | bool b =>
          simp only [copilotParts, ih hrest]
          simp [List.filterMap_cons, copilotPartText]
      | none =>
          simp only [copilotParts, ih hrest]
          simp [List.filterMap_cons, copilotPartText]
      | list l =>
          simp only [copilotParts, ih hrest]
          simp [List.filterMap_cons, copilotPartText]

/-- `copilot.extract_content` on a message whose `content` is a nonempty
list of well-shaped parts: the newline join of the parts' texts. -/
theorem copilotExtractContent_list (parts : List PyVal)
    (hne : parts ≠ []) (hok : ∀ p ∈ parts, PartOk p) :
    copilotExtractContent (.dict [("content", .list parts)]) =
      .ok (copilotJoinSpec parts) := by
  unfold copilotExtractContent
  simp only [pyGet_dict, except_bind_ok]
  have hget : dGetD [("content", PyVal.list parts)] "content" .none =
      .list parts := rfl
  have htr : pyTruthy (PyVal.list parts) = true := by
    simp [pyTruthy, hne]
  have horr : ∀ d, pyOr (PyVal.list parts) d = .list parts := fun d => by
    unfold pyOr
    rw [if_pos htr]
  simp only [hget, horr]
  have hmiss : ∀ k, dGetD [("content", PyVal.list parts)] k .none = .none →
      True := fun _ _ => trivial
  show (do
    let strs ← (copilotParts parts).mapM fun v =>
      match v with
      | PyVal.str s => Except.ok s
      | _ => Except.error BErr.type
    pure (String.intercalate "\n" strs) :
      Except BErr String) = _
  rw [copilotParts_mapM parts hok]
  rfl

/-! ## Rank-bounded termination of the tree walker -/

theorem errok_bind_h {α β : Type} {P : BErr → Prop} {x : Except BErr α}
    {f : α → Except BErr β} (hx : ErrOk P x)
    (hf : ∀ a, x = .ok a → ErrOk P (f a)) : ErrOk P (x >>= f) := by
  cases x with
  | ok a => exact hf a rfl
  | error e => exact hx

theorem errok_foldlM_mem {α σ : Type} {P : BErr → Prop}
    {f : σ → α → Except BErr σ} :
    ∀ (l : List α), (∀ s a, a ∈ l → ErrOk P (f s a)) →
      ∀ (s : σ), ErrOk P (l.foldlM f s) := by
  intro l
  induction l with
  | nil => intro _ s; trivial
  | cons a as ih =>
      intro hf s
      refine errok_bind (hf s a (List.mem_cons_self _ _)) fun s' => ?_
      exact ih (fun s'' b hb => hf s'' b (List.mem_cons_of_mem _ hb)) s'

theorem dlookup_mem (kvs : List (String × PyVal)) (s : String) (v : PyVal)
    (h : dlookup kvs s = some v) : (s, v) ∈ kvs := by
  unfold dlookup at h
  cases hf : kvs.find? (fun kv => kv.1 == s) with
  | none => rw [hf] at h; simp at h
  | some kv =>
      rw [hf] at h
      simp only [Option.map_some', Option.some.injEq] at h
      have hm := List.mem_of_find?_eq_some hf
      have hp := List.find?_some hf
      obtain ⟨k1, v1⟩ := kv
      simp only [beq_iff_eq] at hp
      simp only at h
      rw [hp, h] at hm
      exact hm

/-- With a rank function that strictly decreases along every child
reference, `traverse` cannot exhaust the recursion stack once the fuel
exceeds the starting id's rank. -/
theorem chatgptTraverse_rank (kvs : List (String × PyVal))
    (rank : String → Nat)
    (Hrank : ∀ k node, (k, node) ∈ kvs →
      ∀ c ∈ childIds node, idRank rank c < rank k) :
    ∀ (fuel : Nat) (nid : PyVal) (order : Nat),
      idRank rank nid < fuel →
      ErrOk NotRec (chatgptTraverse kvs fuel nid order) := by
  intro fuel
  induction fuel with
  | zero => intro nid order h; omega
  | succ n ih =>
      intro nid order hlt
      simp only [chatgptTraverse]
      refine errok_bind_h (errok_pyDictGetVal nr_type _ _)
        fun node hnode => ?_
      split
      · trivial
      · rename_i hTruthy
        refine errok_bind (errok_pyGet nr_attr _ _ _) fun message => ?_
        refine errok_bind (errok_chatgptIncluded nr_attr _) fun inc => ?_
        refine errok_bind
          (errok_chatgptVisit nr_attr nr_overflow nr_type _ _ _)
          fun st => ?_
        refine errok_bind_h (errok_pyGet nr_attr _ _ _)
          fun children hch => ?_
        refine errok_bind_h (errok_pyIter nr_type _) fun cl hcl => ?_
        have hbound : ∀ c ∈ cl, idRank rank c < n := by
          cases nid with
          | str s =>
              have hnode' : node = dGetD kvs s .none := by
                have : Except.ok (dGetD kvs s PyVal.none) =
                    (Except.ok node : Except BErr PyVal) := hnode
                injection this with hh
                exact hh.symm
              have hmem : (s, node) ∈ kvs := by
                cases hl : dlookup kvs s with
                | none =>
                    exfalso
                    apply hTruthy
                    rw [hnode']
                    unfold dGetD
                    rw [hl]
                    rfl
                | some v =>
                    have hv := dlookup_mem kvs s v hl
                    have : node = v := by
                      rw [hnode']
                      unfold dGetD
                      rw [hl]
                      rfl
                    rw [this]
                    exact hv
              intro c hc
              have hchild : c ∈ childIds node := by
                cases node with
                | dict nkvs =>
                    have hch' : children =
                        dGetD nkvs "children" (.list []) := by
                      have : Except.ok (dGetD nkvs "children"
                          (PyVal.list [])) =
                          (Except.ok children : Except BErr PyVal) := hch
                      injection this with hh
                      exact hh.symm
                    have hceq : childIds (.dict nkvs) = cl := by
                      show (match pyIter (dGetD nkvs "children"
                          (PyVal.list [])) with
                        | Except.ok l => l
                        | Except.error _ => []) = cl
                      rw [← hch', hcl]
                    rw [hceq]
                    exact hc
                | str s' => exact absurd hch (by simp [pyGet])
                | int m => exact absurd hch (by simp [pyGet])
                | bool b => exact absurd hch (by simp [pyGet])
                | none => exact absurd hch (by simp [pyGet])
                | list l => exact absurd hch (by simp [pyGet])
              have hstep := Hrank s node hmem c hchild
              have hr : rank s < n + 1 := hlt
              omega
          | int m =>
              exfalso
              apply hTruthy
              have : node = PyVal.none := by
                have : (Except.ok PyVal.none : Except BErr PyVal) =
                    Except.ok node := hnode
                injection this with hh
                exact hh.symm
              rw [this]
              rfl
          | bool b =>
              exfalso
              apply hTruthy
              have : node = PyVal.none := by
                have : (Except.ok PyVal.none : Except BErr PyVal) =
                    Except.ok node := hnode
                injection this with hh
                exact hh.symm
              rw [this]
              rfl
          | none =>
              exfalso
              apply hTruthy
              have : node = PyVal.none := by
                have : (Except.ok PyVal.none : Except BErr PyVal) =
                    Except.ok node := hnode
                injection this with hh
                exact hh.symm
              rw [this]
              rfl
          | list l => exact absurd hnode (by simp [pyDictGetVal])
          | dict d => exact absurd hnode (by simp [pyDictGetVal])
        refine errok_foldlM_mem _ (fun acc c hc => ?_) _
        exact errok_bind (ih c acc.2 (hbound c hc)) fun r => errok_pure _

/-- With a rank function strictly decreasing along child references and
fuel exceeding every rank, `extract_messages_from_mapping` terminates
without a `RecursionError`. -/
theorem chatgptExtract_rank (kvs : List (String × PyVal))
    (rank : String → Nat)
    (Hrank : ∀ k node, (k, node) ∈ kvs →
      ∀ c ∈ childIds node, idRank rank c < rank k)
    (fuel : Nat) (hfuel : ∀ s, rank s < fuel) :
    ErrOk NotRec (chatgptExtractMessages fuel (.dict kvs)) := by
  unfold chatgptExtractMessages
  refine errok_ite (errok_pure _) ?_
  refine errok_bind (errok_chatgptFindRoot nr_attr _) fun r => ?_
  refine errok_bind
    (chatgptTraverse_rank kvs rank Hrank fuel _ 0 (hfuel _))
    fun st => errok_pure _

/-- On the cyclic single-node mapping, each unit of recursion fuel is
consumed by one self-recursive call. -/
theorem cycKvs_traverse_loops (fuel : Nat) :
    chatgptTraverse cycKvs fuel (.str "a") 0 = .error .recursion := by
  induction fuel with
  | zero => rfl
  | succ n ih =>
      have step : chatgptTraverse cycKvs (n + 1) (.str "a") 0 =
          Except.bind (Except.bind (chatgptTraverse cycKvs n (.str "a") 0)
            (fun r => Except.ok (([] : List MsgRec) ++ r.1, r.2)))
            (fun s => Except.ok s) := rfl
      rw [step, ih]
      rfl

/-- On the cyclic single-node mapping the extraction always exhausts any
recursion fuel. -/
theorem cycKvs_extract_loops (fuel : Nat) :
    chatgptExtractMessages fuel (.dict cycKvs) = .error .recursion := by
  have h : chatgptExtractMessages fuel (.dict cycKvs) =
      Except.bind (chatgptTraverse cycKvs fuel (.str "a") 0)
        (fun st => Except.ok st.1) := rfl
  rw [h, cycKvs_traverse_loops fuel]
  rfl

/-! ## Claim theorems -/

/-- C1 (counterexample): in the Claude adapter, a conversation whose
first source message is whitespace-only and whose second is kept yields a
single message with `order_index` 1, not the contiguous range `[0]` the
claim requires. -/
theorem c1_counterexample :
    (parse_claude_export (.list [.dict [("uuid", .str "u"),
      ("chat_messages", .list [
        .dict [("sender", .str "human"), ("text", .str "   ")],
        .dict [("sender", .str "assistant"), ("text", .str "hello")]])]])).map
      (fun cs => cs.map fun c => c.messages.map (·.orderIndex)) =
    .ok [[1]] ∧ [1] ≠ List.range 1 :=
  ⟨rfl, by decide⟩

/-- C1 (amended): ChatGPT's tree walker assigns `order_index` as the
running count of emitted messages, so its output indices are always the
contiguous range `0..len-1`; the Claude, Gemini and Copilot loops instead
assign the message's `enumerate` position in the source array, so
filtered-out source messages leave gaps. -/
theorem c1_order_index :
    (∀ (fuel : Nat) (mapping : PyVal) (msgs : List MsgRec),
      chatgptExtractMessages fuel mapping = .ok msgs →
      msgs.map (·.orderIndex) = List.range msgs.length) ∧
    (∀ (mdl : PyVal) (idx : Nat) (msgs : List PyVal) (res : List MsgRec),
      claudeMessages mdl idx msgs = .ok res →
      res.map (·.orderIndex) = claudeKeptIdx mdl idx msgs) ∧
    (∀ (cc : Option Instant) (mdl : PyVal) (idx : Nat) (msgs : List PyVal)
      (res : List MsgRec),
      geminiMessages cc mdl idx msgs = .ok res →
      res.map (·.orderIndex) = geminiKeptIdx cc mdl idx msgs) ∧
    (∀ (cc : Option Instant) (idx : Nat) (msgs : List PyVal)
      (res : List MsgRec),
      copilotMessages cc idx msgs = .ok res →
      res.map (·.orderIndex) = copilotKeptIdx cc idx msgs) :=
  ⟨fun fuel mapping msgs h => chatgptExtract_contig fuel mapping msgs h,
   fun mdl idx msgs res h => claudeMessages_kept mdl idx msgs res h,
   fun cc mdl idx msgs res h => geminiMessages_kept cc mdl idx msgs res h,
   fun cc idx msgs res h => copilotMessages_kept cc idx msgs res h⟩

/-- C1 (witness): the amended claim applied to a concrete one-message
Claude conversation. -/
theorem c1_witness :
    claudeMessages (.str "m") 0
      [.dict [("sender", .str "human"), ("text", .str "hi")]] =
      .ok [{ sourceId := .none, role := .str "user", content := "hi",
             contentType := .str "text", createdAt := Option.none,
             orderIndex := 0, model := .str "m" }] ∧
    List.map (·.orderIndex)
      [({ sourceId := .none, role := .str "user", content := "hi",
          contentType := .str "text", createdAt := Option.none,
          orderIndex := 0, model := .str "m" } : MsgRec)] =
      claudeKeptIdx (.str "m") 0
        [.dict [("sender", .str "human"), ("text", .str "hi")]] :=
  ⟨rfl, c1_order_index.2.1 (.str "m") 0
    [.dict [("sender", .str "human"), ("text", .str "hi")]] _ rfl⟩

/-- C2 (counterexample): the Claude normalizer has no milliseconds path:
`1700000000000` converts directly as epoch seconds, falls outside the
`datetime` range, and yields absent — not the instant `1700000000`
yields. -/
theorem c2_counterexample :
    claudeParseTimestamp (.int 1700000000000) = .ok Option.none ∧
    claudeParseTimestamp (.int 1700000000) = .ok (some 1700000000) ∧
    (Option.none : Option Instant) ≠ some 1700000000 :=
  ⟨rfl, rfl, by decide⟩

/-- C2 (amended): Gemini and Copilot apply the `> 1e12` milliseconds
heuristic — for such `n` (up to `1e15`, where no second division can
trigger) the result equals normalizing `n / 1000`, and `1700000000000`
yields the same instant as `1700000000`; Claude and ChatGPT convert
numerics directly as epoch seconds, so `1700000000000` is out of range
and yields absent. -/
theorem c2_ms_heuristic :
    (∀ n : Int, 10 ^ 12 < n → n ≤ 10 ^ 15 →
      geminiParseTimestamp (.int n) =
        geminiParseTimestamp (.int (n / 1000)) ∧
      copilotParseTimestamp (.int n) =
        copilotParseTimestamp (.int (n / 1000))) ∧
    geminiParseTimestamp (.int 1700000000000) = .ok (some 1700000000) ∧
    copilotParseTimestamp (.int 1700000000000) = .ok (some 1700000000) ∧
    claudeParseTimestamp (.int 1700000000000) = .ok Option.none ∧
    chatgptMsgTs (.int 1700000000000) = .ok Option.none := by
  refine ⟨?_, rfl, rfl, rfl, rfl⟩
  intro n h1 h2
  have htr : pyTruthy (PyVal.int n) = true := by
    simp [pyTruthy]
    omega
  have htr2 : pyTruthy (PyVal.int (n / 1000)) = true := by
    simp [pyTruthy]
    omega
  have hdiv : ¬ (n / 1000 > 10 ^ 12) := by omega
  constructor
  · have L : geminiParseTimestamp (.int n) =
        catchTs (pyFromtimestamp (if n > 10 ^ 12 then n / 1000 else n)) := by
      show (if pyTruthy (PyVal.int n) = false then Except.ok Option.none
        else catchTs (pyFromtimestamp
          (if n > 10 ^ 12 then n / 1000 else n))) = _
      rw [htr]
      simp
    have R : geminiParseTimestamp (.int (n / 1000)) =
        catchTs (pyFromtimestamp
          (if n / 1000 > 10 ^ 12 then n / 1000 / 1000 else n / 1000)) := by
      show (if pyTruthy (PyVal.int (n / 1000)) = false then
          Except.ok Option.none
        else catchTs (pyFromtimestamp
          (if n / 1000 > 10 ^ 12 then n / 1000 / 1000 else n / 1000))) = _
      rw [htr2]
      simp
    rw [L, R, if_pos h1, if_neg hdiv]
  · have L : copilotParseTimestamp (.int n) =
        catchTs (pyFromtimestamp (if n > 10 ^ 12 then n / 1000 else n)) := by
      show (if pyTruthy (PyVal.int n) = false then Except.ok Option.none
        else catchTs (pyFromtimestamp
          (if n > 10 ^ 12 then n / 1000 else n))) = _
      rw [htr]
      simp
    have R : copilotParseTimestamp (.int (n / 1000)) =
        catchTs (pyFromtimestamp
          (if n / 1000 > 10 ^ 12 then n / 1000 / 1000 else n / 1000)) := by
      show (if pyTruthy (PyVal.int (n / 1000)) = false then
          Except.ok Option.none
        else catchTs (pyFromtimestamp
          (if n / 1000 > 10 ^ 12 then n / 1000 / 1000 else n / 1000))) = _
      rw [htr2]
      simp
    rw [L, R, if_pos h1, if_neg hdiv]

/-- C2 (witness): the amended claim applied at `n = 2000000000000`. -/
theorem c2_witness :
    geminiParseTimestamp (.int 2000000000000) =
      geminiParseTimestamp (.int 2000000000) ∧
    copilotParseTimestamp (.int 2000000000000) =
      copilotParseTimestamp (.int 2000000000) := by
  have h := c2_ms_heuristic.1 2000000000000 (by norm_num) (by norm_num)
  have e : (2000000000000 : Int) / 1000 = 2000000000 := by norm_num
  rw [e] at h
  exact h

/-- C3 (counterexample): the tree walker is plain call-stack recursion
with no visited set — on a mapping whose node lists itself as a child, no
amount of recursion fuel lets it finish, so it does not terminate. -/
theorem c3_counterexample :
    ¬ ∃ fuel : Nat,
      chatgptExtractMessages fuel (.dict cycKvs) ≠ .error .recursion := by
  rintro ⟨fuel, hne⟩
  exact hne (cycKvs_extract_loops fuel)

/-- C3 (amended): the traversal is bounded only by the recursion stack;
it cannot raise `RecursionError` on mappings that admit a rank strictly
decreasing along child references (in particular, acyclic ones), given
stack depth exceeding every rank — but cyclic child references make it
exhaust any stack (see the counterexample). -/
theorem c3_termination (kvs : List (String × PyVal))
    (rank : String → Nat)
    (Hrank : ∀ k node, (k, node) ∈ kvs →
      ∀ c ∈ childIds node, idRank rank c < rank k)
    (fuel : Nat) (hfuel : ∀ s, rank s < fuel) :
    chatgptExtractMessages fuel (.dict kvs) ≠ .error .recursion :=
  errok_ne_recursion (chatgptExtract_rank kvs rank Hrank fuel hfuel)

/-- C3 (witness): the amended claim applied to a concrete two-node
acyclic mapping with rank `a ↦ 1, _ ↦ 0` and fuel 2. -/
theorem c3_witness :
    chatgptExtractMessages 2 (.dict acyclicKvs) ≠ .error .recursion := by
  refine c3_termination acyclicKvs
    (fun s => if s = "a" then 1 else 0) ?_ 2 ?_
  · intro k node hmem c hc
    simp only [acyclicKvs, List.mem_cons, List.not_mem_nil, or_false,
      Prod.mk.injEq] at hmem
    rcases hmem with ⟨rfl, rfl⟩ | ⟨rfl, rfl⟩
    · simp only [show childIds (PyVal.dict [("parent", PyVal.none),
        ("children", PyVal.list [PyVal.str "b"])]) = [PyVal.str "b"]
        from rfl, List.mem_singleton] at hc
      subst hc
      decide
    · simp only [show childIds (PyVal.dict [("parent", PyVal.str "a"),
        ("children", PyVal.list [])]) = ([] : List PyVal) from rfl,
        List.not_mem_nil] at hc
  · intro s
    dsimp only
    split <;> omega

/-- C4 (counterexample): a Claude conversation with a `created_at` of its
own and a message without one yields a message whose `created_at` is
absent — it does not fall back to the conversation's instant. -/
theorem c4_counterexample :
    (parse_claude_export (.list [.dict [("uuid", .str "u"),
      ("created_at", .int 1700000000),
      ("chat_messages", .list [
        .dict [("sender", .str "human"), ("text", .str "hi")]])]])).map
      (fun cs => cs.map fun c => (c.createdAt, c.messages.map (·.createdAt))) =
    .ok [(some 1700000000, [Option.none])] ∧
    (Option.none : Option Instant) ≠ some 1700000000 :=
  ⟨rfl, by decide⟩

/-- C4 (amended): Gemini and Copilot messages fall back to the parent
conversation's `created_at` when the message's own timestamp is absent
(and use their own instant otherwise); Claude and ChatGPT messages take
exactly their own parsed timestamp, with no conversation fallback. -/
theorem c4_created_at_fallback :
    (∀ (mdl : PyVal) (kvs : List (String × PyVal)) (f : MsgFields),
      claudeMsgFields mdl (.dict kvs) = .ok (some f) →
      claudeParseTimestamp (dGetD kvs "created_at" .none) =
        .ok f.createdAt) ∧
    (∀ (kvs : List (String × PyVal)) (f : MsgFields),
      chatgptMsgFields (.dict kvs) = .ok (some f) →
      chatgptMsgTs (dGetD kvs "create_time" .none) = .ok f.createdAt) ∧
    (∀ (cc : Option Instant) (mdl : PyVal) (kvs : List (String × PyVal))
      (f : MsgFields),
      geminiMsgFields cc mdl (.dict kvs) = .ok (some f) →
      (geminiParseTimestamp (geminiOwnTs kvs) = .ok Option.none →
        f.createdAt = cc) ∧
      (∀ t, geminiParseTimestamp (geminiOwnTs kvs) = .ok (some t) →
        f.createdAt = some t)) ∧
    (∀ (cc : Option Instant) (kvs : List (String × PyVal)) (f : MsgFields),
      copilotMsgFields cc (.dict kvs) = .ok (some f) →
      (copilotParseTimestamp (copilotOwnTs kvs) = .ok Option.none →
        f.createdAt = cc) ∧
      (∀ t, copilotParseTimestamp (copilotOwnTs kvs) = .ok (some t) →
        f.createdAt = some t)) :=
  ⟨fun mdl kvs f h => claudeMsgFields_createdAt mdl kvs f h,
   fun kvs f h => chatgptMsgFields_createdAt kvs f h,
   fun cc mdl kvs f h => geminiMsgFields_createdAt cc mdl kvs f h,
   fun cc kvs f h => copilotMsgFields_createdAt cc kvs f h⟩

/-- C4 (witness): the amended claim applied to a concrete Gemini message
without its own timestamp, inside a conversation created at instant 5. -/
theorem c4_witness :
    geminiMsgFields (some 5) .none (.dict [("text", .str "hi")]) =
      .ok (some (⟨.none, .str "assistant", "hi", .str "text", some 5,
        .str "gemini"⟩ : MsgFields)) ∧
    (⟨.none, .str "assistant", "hi", .str "text", some 5,
      .str "gemini"⟩ : MsgFields).createdAt = some 5 :=
  ⟨rfl,
   (c4_created_at_fallback.2.2.1 (some 5) .none [("text", .str "hi")]
      ⟨.none, .str "assistant", "hi", .str "text", some 5,
        .str "gemini"⟩ rfl).1 rfl⟩

/-- C5 (counterexample): an empty top-level sequence IS a located
conversation list, yet the Claude adapter's falsiness check raises the
format error on it instead of succeeding with zero conversations. -/
theorem c5_counterexample :
    claudeLocate (.list []) = .list [] ∧
    parse_claude_export (.list []) =
      .error (.value "Unrecognized Claude export format") :=
  ⟨rfl, rfl⟩

/-- C5 (amended): each adapter raises its format `ValueError` exactly
when its shape detection fails its emptiness test — for ChatGPT that test
is `is None`, so an empty located list succeeds with no conversations;
for Claude, Gemini and Copilot the test is falsiness, so an empty located
sequence also raises.  A raise happens before any item is processed, so
no partial results accompany it. -/
theorem c5_format_error (fuel : Nat) (p : PyVal) :
    (parse_chatgpt_export fuel p =
       .error (.value "Unrecognized ChatGPT export format") ↔
     chatgptLocate p = .none) ∧
    (parse_claude_export p =
       .error (.value "Unrecognized Claude export format") ↔
     pyTruthy (claudeLocate p) = false) ∧
    (parse_gemini_export p =
       .error (.value "Unrecognized Gemini export format") ↔
     pyTruthy (geminiLocate p) = false) ∧
    (parse_copilot_export p =
       .error (.value "Unrecognized Copilot export format") ↔
     pyTruthy (copilotLocate p) = false) ∧
    parse_chatgpt_export fuel (.list []) = .ok [] :=
  ⟨chatgpt_fmt_iff fuel p, claude_fmt_iff p, gemini_fmt_iff p,
   copilot_fmt_iff p, rfl⟩

/-- C5 (witness): the characterization applied to the empty-list payload
for the Gemini adapter (whose located value is falsy). -/
theorem c5_witness :
    parse_gemini_export (.list []) =
      .error (.value "Unrecognized Gemini export format") :=
  (c5_format_error 0 (.list [])).2.2.1.mpr rfl

/-- C6: the ChatGPT inclusion filter excludes a (truthy, dict-shaped)
message exactly when its metadata marks it visually hidden, its content
type is `user_editable_context` or `system_error`, or its author role is
outside {user, assistant, tool}; and the spec's 3-node example (root
without message → visible user A → hidden assistant B) yields exactly
message A at `order_index` 0. -/
theorem c6_inclusion_filter :
    (∀ (mkvs m c a : List (String × PyVal)),
      pyTruthy (.dict mkvs) = true →
      dGetD mkvs "metadata" (.dict []) = .dict m →
      dGetD mkvs "content" (.dict []) = .dict c →
      dGetD mkvs "author" (.dict []) = .dict a →
      (chatgptShouldInclude (.dict mkvs) = .ok false ↔
        (pyTruthy (dGetD m "is_visually_hidden_from_conversation" .none)
            = true ∨
         dGetD c "content_type" (.str "") = .str "user_editable_context" ∨
         dGetD c "content_type" (.str "") = .str "system_error" ∨
         ¬(dGetD a "role" (.str "") = .str "user" ∨
           dGetD a "role" (.str "") = .str "assistant" ∨
           dGetD a "role" (.str "") = .str "tool")))) ∧
    (parse_chatgpt_export 5 (.list [.dict [("title", .str "t"),
      ("mapping", exMapping)]])).map
      (fun cs => cs.map fun c => c.messages.map
        fun m => (m.content, m.orderIndex, m.role)) =
    .ok [[("Hello", 0, .str "user")]] :=
  ⟨fun mkvs m c a hmt hm hc ha =>
      chatgptShouldInclude_iff mkvs m c a hmt hm hc ha,
   rfl⟩

/-- C6 (witness): the filter characterization applied to the concrete
hidden message B of the 3-node example. -/
theorem c6_witness :
    chatgptShouldInclude (.dict [
      ("author", .dict [("role", .str "assistant")]),
      ("content", .dict [("content_type", .str "text"),
                         ("parts", .list [.str "secret"])]),
      ("metadata",
        .dict [("is_visually_hidden_from_conversation", .bool true)])]) =
      .ok false :=
  (c6_inclusion_filter.1
    [("author", .dict [("role", .str "assistant")]),
     ("content", .dict [("content_type", .str "text"),
                        ("parts", .list [.str "secret"])]),
     ("metadata",
       .dict [("is_visually_hidden_from_conversation", .bool true)])]
    [("is_visually_hidden_from_conversation", .bool true)]
    [("content_type", .str "text"), ("parts", .list [.str "secret"])]
    [("role", .str "assistant")]
    rfl rfl rfl rfl).mpr (Or.inl rfl)

/-- C7 (counterexample): a Copilot conversation without a title whose
messages live under `turns` — a shape the message loop accepts — is NOT
probed by `extract_title_from_first_message` (which only probes
`messages` and `exchanges`), so a 75-character first user message yields
the title "Untitled Conversation" rather than its first 60 characters
plus `"..."`. -/
theorem c7_counterexample :
    (parse_copilot_export (.list [.dict [("turns", .list [
      .dict [("role", .str "user"), ("content", .str c75)]])]])).map
      (fun cs => cs.map (·.title)) =
    .ok [.str "Untitled Conversation"] ∧
    PyVal.str "Untitled Conversation" ≠
      .str (String.mk (List.replicate 60 'a') ++ "...") :=
  ⟨rfl, by
    intro h
    injection h with hh
    exact absurd hh (by decide)⟩

/-- C7 (amended): the first-pass title derivation (first user message's
content, truncated to 60 characters with `"..."` when longer) probes only
the `messages` and `exchanges` shapes — not `turns`; the second pass
regenerates the title from the canonical messages exactly when the
resolved title is falsy or literally `"Untitled"`. -/
theorem c7_title_resolution :
    (∀ (kvs : List (String × PyVal)) (msg : PyVal) (content : String),
      pyOr (pyOr (dGetD kvs "messages" .none)
        (dGetD kvs "exchanges" .none)) (.list []) = .list [msg] →
      copilotDetermineRole msg = .ok "user" →
      copilotExtractContent msg = .ok content →
      content ≠ "" →
      copilotExtractTitle (.dict kvs) =
        .ok (content.take 60 ++
          (if content.length > 60 then "..." else ""))) ∧
    (∀ (t : PyVal) (msgs : List MsgRec),
      pyTruthy t = false ∨ pyEqStr t "Untitled" = true →
      copilotFinalTitle t msgs = .str (copilotGenerateTitle msgs)) ∧
    (∀ (t : PyVal) (msgs : List MsgRec),
      pyTruthy t = true → pyEqStr t "Untitled" = false →
      copilotFinalTitle t msgs = t) ∧
    (parse_copilot_export (.list [.dict [("messages", .list [
      .dict [("role", .str "user"), ("content", .str c75)]])]])).map
      (fun cs => cs.map (·.title)) =
    .ok [.str (String.mk (List.replicate 60 'a') ++ "...")] ∧
    copilotExtractTitle (.dict [("turns", .list [
      .dict [("role", .str "user"), ("content", .str c75)]])]) =
      .ok "Untitled Conversation" := by
  refine ⟨?_, ?_, ?_, rfl, rfl⟩
  · exact fun kvs msg content hmsgs hrole hcontent hne =>
      copilotExtractTitle_single kvs msg content hmsgs hrole hcontent hne
  · intro t msgs h
    unfold copilotFinalTitle
    rcases h with h | h <;> rw [if_pos (by simp [h])]
  · intro t msgs h1 h2
    unfold copilotFinalTitle
    rw [if_neg (by simp [h1, h2])]

/-- C7 (witness): the first-pass derivation applied to a concrete
`messages`-shaped conversation with a 75-character user message. -/
theorem c7_witness :
    copilotExtractTitle (.dict [("messages", .list [
      .dict [("role", .str "user"), ("content", .str c75)]])]) =
      .ok (c75.take 60 ++ (if c75.length > 60 then "..." else "")) :=
  c7_title_resolution.1 [("messages", .list [
      .dict [("role", .str "user"), ("content", .str c75)]])]
    (.dict [("role", .str "user"), ("content", .str c75)]) c75
    rfl rfl rfl (by decide)

/-- C8 (counterexample): the ChatGPT extractor joins only the string
elements of `parts`, silently dropping mapping elements — a parts list
`["part1", {"text": "part2"}]` extracts as `"part1"`, not
`"part1\npart2"`. -/
theorem c8_counterexample :
    (chatgptParseMessage (.dict [
      ("author", .dict [("role", .str "user")]),
      ("content", .dict [("content_type", .str "text"),
        ("parts", .list [.str "part1",
          .dict [("text", .str "part2")]])])]) 0).map
      (Option.map (·.content)) = .ok (some "part1") ∧
    "part1" ≠ "part1\npart2" :=
  ⟨rfl, by decide⟩

/-- C8 (amended): only Copilot's extractor joins a sequence's string
elements together with mapping elements' own extracted text (their
`text`/`value` field) by newlines — in particular
`[{"text": "part1"}, {"text": "part2"}]` gives `"part1\npart2"`; ChatGPT
drops mapping elements entirely, and Gemini joins `str(part)` of each
truthy element, turning a mapping element into its Python string form. -/
theorem c8_content_join :
    (∀ (parts : List PyVal), parts ≠ [] → (∀ p ∈ parts, PartOk p) →
      copilotExtractContent (.dict [("content", .list parts)]) =
        .ok (copilotJoinSpec parts)) ∧
    copilotExtractContent (.dict [("content", .list [
      .dict [("text", .str "part1")], .dict [("text", .str "part2")]])]) =
      .ok "part1\npart2" ∧
    (chatgptParseMessage (.dict [
      ("author", .dict [("role", .str "user")]),
      ("content", .dict [("content_type", .str "text"),
        ("parts", .list [.str "part1",
          .dict [("text", .str "part2")]])])]) 0).map
      (Option.map (·.content)) = .ok (some "part1") ∧
    geminiExtractContent (.dict [("text", .list [.str "part1",
      .dict [("text", .str "part2")]])]) =
      .ok ("part1\n\x7b'text': 'part2'\x7d") :=
  ⟨fun parts hne hok => copilotExtractContent_list parts hne hok,
   rfl, rfl, rfl⟩

/-- C8 (witness): the amended join applied to the concrete two-mapping
parts list. -/
theorem c8_witness :
    copilotExtractContent (.dict [("content", .list [
      .dict [("text", .str "part1")], .dict [("text", .str "part2")]])]) =
      .ok (copilotJoinSpec [.dict [("text", .str "part1")],
        .dict [("text", .str "part2")]]) :=
  c8_content_join.1 _ (by simp)
    (by
      intro p hp
      simp only [List.mem_cons, List.not_mem_nil, or_false] at hp
      rcases hp with rfl | rfl
      · exact fun kvs hk => by
          injection hk with hh
          subst hh
          exact ⟨"part1", rfl⟩
      · exact fun kvs hk => by
          injection hk with hh
          subst hh
          exact ⟨"part2", rfl⟩)

/-- C9: the `except` clauses of the three timestamp normalizers catch
only `ValueError`, `OSError` and `TypeError`, but
`datetime.fromtimestamp` raises `OverflowError` for values outside the
platform `time_t` — so the numeric input `10^22` escapes as an uncaught
exception from all three, contradicting the claim's totality (the claim
matches the code's evident intent; the missing exception kind is a code
bug). -/
theorem c9_overflow_escape :
    claudeParseTimestamp (.int (10 ^ 22)) = .error .overflow ∧
    geminiParseTimestamp (.int (10 ^ 22)) = .error .overflow ∧
    copilotParseTimestamp (.int (10 ^ 22)) = .error .overflow :=
  ⟨rfl, rfl, rfl⟩

/-- C10 (counterexample): a ChatGPT conversation whose `create_time` is
exactly `0` gets the epoch instant as `created_at`, not null — the
conversation-level guard is `is not None`, not truthiness. -/
theorem c10_counterexample :
    (parse_chatgpt_export 1 (.list [.dict [("create_time", .int 0),
      ("mapping", .dict [])]])).map (fun cs => cs.map (·.createdAt)) =
    .ok [some 0] ∧ some (0 : Instant) ≠ (Option.none : Option Instant) :=
  ⟨rfl, by decide⟩

/-- C10 (amended): every falsy timestamp input normalizes to absent in
the three `parse_timestamp` normalizers and in the ChatGPT
message-level path (`if create_time:`), but the ChatGPT
conversation-level path tests `is not None`, so numeric `0` converts to
the epoch instant there. -/
theorem c10_falsy_timestamps :
    (∀ v, pyTruthy v = false →
      claudeParseTimestamp v = .ok Option.none ∧
      geminiParseTimestamp v = .ok Option.none ∧
      copilotParseTimestamp v = .ok Option.none) ∧
    chatgptMsgTs (.int 0) = .ok Option.none ∧
    chatgptConvTs (.int 0) = .ok (some 0) ∧
    (chatgptParseMessage (.dict [
      ("author", .dict [("role", .str "user")]),
      ("content", .dict [("parts", .list [.str "hi"])]),
      ("create_time", .int 0)]) 0).map (Option.map (·.createdAt)) =
      .ok (some Option.none) := by
  refine ⟨?_, rfl, rfl, rfl⟩
  intro v hv
  refine ⟨?_, ?_, ?_⟩ <;>
    simp [claudeParseTimestamp, geminiParseTimestamp,
      copilotParseTimestamp, hv]

/-- C10 (witness): the falsy rule applied at the numeric input `0`. -/
theorem c10_witness :
    pyTruthy (PyVal.int 0) = false ∧
    claudeParseTimestamp (.int 0) = .ok Option.none ∧
    geminiParseTimestamp (.int 0) = .ok Option.none ∧
    copilotParseTimestamp (.int 0) = .ok Option.none :=
  ⟨rfl, (c10_falsy_timestamps.1 (.int 0) rfl).1,
    (c10_falsy_timestamps.1 (.int 0) rfl).2.1,
    (c10_falsy_timestamps.1 (.int 0) rfl).2.2⟩

end ChatArchive
